import Mathlib

/-!
requerySchemaGen: column type mapping and per-table class assembly.

A shallow embedding of `requerySchemaGen.go`.

* Go strings are modelled by `String`; every library routine the program calls
  (`strings.HasPrefix`, `strings.TrimRight`, `strings.TrimSpace`,
  `strings.Replace`, `strconv.Itoa`, `strconv.Atoi`, the regular expression
  `\((\d+)\)`) is modelled on the character list of the string.
* A Go `panic` is modelled by `Except.error`; a normal return by `Except.ok`.
* Go's `int` is taken to be 64 bits wide (`strconv.Atoi` fails outside that range).
* `log.Printf` calls only write to the log and are left out.
* The functions of the external package `inflect` are a parameter (`Inflect`); they
  are taken to return normally on every input.
* The rows answered by `DESCRIBE <table>` are a parameter (`List Column`); a column
  that is SQL `NULL` is read as the empty string, as `sql.NullString.String` does.
* The command-line flags `*generateInterface` and `*kotlinPackage` are parameters.
-/

namespace RequerySchemaGen

deriving instance DecidableEq for Except

/-! ## Library routines -/

/-- Go `strings.HasPrefix`. -/
def HasPrefix (s pre : String) : Bool :=
  pre.data.isPrefixOf s.data

/-- Go `strings.HasSuffix`. -/
def HasSuffix (s suf : String) : Bool :=
  suf.data.isSuffixOf s.data

/-- Go `strings.TrimRight`: drops every trailing character contained in `cutset`. -/
def TrimRight (s cutset : String) : String :=
  ⟨s.data.rdropWhile (fun c => cutset.data.contains c)⟩

/-- Go `unicode.IsSpace`. -/
def isSpace (c : Char) : Bool :=
  let n := c.toNat
  (9 ≤ n && n ≤ 13) || n == 32 || n == 133 || n == 160 || n == 5760 ||
  (8192 ≤ n && n ≤ 8202) || n == 8232 || n == 8233 || n == 8239 || n == 8287 || n == 12288

/-- Go `strings.TrimSpace`: drops leading and trailing white space. -/
def TrimSpace (s : String) : String :=
  ⟨(s.data.dropWhile isSpace).rdropWhile isSpace⟩

/-- Replacement of at most `n` non-overlapping occurrences of a non-empty `old`,
scanning left to right; `skip` counts the characters of a matched occurrence still
to be dropped. -/
def replaceGo (old new : List Char) : Nat → Nat → List Char → List Char
  | _, _, [] => []
  | skip + 1, n, _ :: cs => replaceGo old new skip n cs
  | 0, 0, c :: cs => c :: cs
  | 0, n + 1, c :: cs =>
    if old.isPrefixOf (c :: cs) then new ++ replaceGo old new (old.length - 1) n cs
    else c :: replaceGo old new 0 (n + 1) cs

/-- Replacement of an empty `old`: `new` is inserted before each character and at
the end, at most `n` times. -/
def replaceEmpty (new : List Char) : Nat → List Char → List Char
  | 0, cs => cs
  | _ + 1, [] => new
  | n + 1, c :: cs => new ++ c :: replaceEmpty new n cs

/-- Go `strings.Replace`: the first `n` non-overlapping occurrences of `old` are
replaced by `new`; a negative `n` puts no limit on the number of replacements. -/
def Replace (s old new : String) (n : Int) : String :=
  let limit : Nat := if n < 0 then s.data.length + 1 else n.toNat
  if old.data = [] then ⟨replaceEmpty new.data limit s.data⟩
  else ⟨replaceGo old.data new.data 0 limit s.data⟩

/-- Largest value of Go's `int` (64 bits). -/
def maxInt : Int := 2 ^ 63 - 1

/-- Smallest value of Go's `int` (64 bits). -/
def minInt : Int := -(2 ^ 63)

/-- Go `strconv.Itoa`. -/
def Itoa (i : Int) : String :=
  if i < 0 then "-" ++ Nat.repr i.natAbs else Nat.repr i.natAbs

/-- An ASCII decimal digit, the class `\d` of Go's `regexp`. -/
def isDigit (c : Char) : Bool :=
  48 ≤ c.toNat && c.toNat ≤ 57

/-- Value of a string of decimal digits, most significant digit first. -/
def digitsValue (ds : List Char) : Nat :=
  ds.foldl (fun acc c => 10 * acc + (c.toNat - 48)) 0

/-- Go `strconv.Atoi`: an optional sign followed by one or more decimal digits;
`none` stands for a returned error (syntax error or value out of range). -/
def Atoi (s : String) : Option Int :=
  let body (neg : Bool) (ds : List Char) : Option Int :=
    if ds = [] || !ds.all isDigit then none
    else
      let v : Int := if neg then -(digitsValue ds : Int) else (digitsValue ds : Int)
      if minInt ≤ v && v ≤ maxInt then some v else none
  match s.data with
  | [] => none
  | c :: cs =>
    if c = '-' then body true cs
    else if c = '+' then body false cs
    else body false (c :: cs)

/-- Match of `\((\d+)\)` anchored at the start of the input: an opening parenthesis,
the longest run of digits (at least one), a closing parenthesis. Returns the digits. -/
def matchParenDigitsAt : List Char → Option (List Char)
  | [] => none
  | c :: rest =>
    if c = '(' then
      let ds := rest.takeWhile isDigit
      match rest.dropWhile isDigit with
      | [] => none
      | d :: _ => if d = ')' ∧ ds ≠ [] then some ds else none
    else none

/-- Leftmost match of `\((\d+)\)` in the input; returns the capture group. -/
def findParenDigits : List Char → Option (List Char)
  | [] => none
  | c :: cs =>
    match matchParenDigitsAt (c :: cs) with
    | some ds => some ds
    | none => findParenDigits cs

/-- Go `regexp.MustCompile("\\((\\d+)\\)").FindStringSubmatch`: the leftmost match and
its capture group, or the empty slice when nothing matches. -/
def FindStringSubmatch (s : String) : List String :=
  match findParenDigits s.data with
  | some ds => [⟨'(' :: ds ++ [')']⟩, ⟨ds⟩]
  | none => []

/-! ## The program -/

/-- Source `getDbTypeLength`. -/
def getDbTypeLength (dbType : String) : Int :=
  let result := FindStringSubmatch dbType
  match result with
  | [_, g] =>
    match Atoi g with
    | none => -1
    | some length => length
  | _ => -1

/-- Source `convertType`; the result is `(dataType, length, nullable)`, and
`Except.error` carries the message of the `panic`. -/
def convertType (dbClnName dbType dbNullable dbDefault column : String) :
    Except String (String × Int × Bool) :=
  let length : Int := -1
  let nullable : Bool := decide (dbNullable = "YES")
  if HasPrefix dbClnName "is_" then
    .ok ("Boolean", length, nullable)
  else if HasPrefix dbType "int" || HasPrefix dbType "tinyint" || HasPrefix dbType "smallint" then
    .ok ("Int", length, nullable)
  else if HasPrefix dbType "bigint" then
    .ok ("Long", length, nullable)
  else if HasPrefix dbType "decimal" then
    .ok ("java.math.BigDecimal", length, nullable)
  else if HasPrefix dbType "float" then
    .ok ("Float", length, nullable)
  else if HasPrefix dbType "double" then
    .ok ("Double", length, nullable)
  else if HasPrefix dbType "varchar" || HasPrefix dbType "char" then
    .ok ("String", getDbTypeLength dbType, nullable)
  else if HasPrefix dbType "enum" then
    .ok ("String", length, nullable)
  else if dbType = "timestamp" then
    .ok ("java.time.ZonedDateTime", length,
      if dbDefault = "0000-00-00 00:00:00" then true else nullable)
  else if dbType = "date" || dbType = "datetime" then
    .ok ("java.time.ZonedDateTime", length, nullable)
  else if dbType = "tinytext" then
    .ok ("String", 255, nullable)
  else if dbType = "text" then
    .ok ("String", 65535, nullable)
  else if dbType = "mediumtext" then
    .ok ("String", 16777215, nullable)
  else if dbType = "longtext" then
    .ok ("String", length, nullable)
  else if dbType = "longblob" || HasPrefix dbType "binary" then
    .ok ("ByteArray", length, nullable)
  else
    .error ("Type not supported: " ++ dbType ++ " - " ++ column)

/-- One row of `DESCRIBE <table>`, in the order the program scans it. -/
structure Column where
  clnName : String
  clnType : String
  clnNull : String
  clnKey : String
  clnDefault : String
  clnExtra : String
deriving DecidableEq, Repr

/-- Source `Property`. -/
structure Property where
  Annotation : String
  Field : String
deriving DecidableEq, Repr

/-- Source `DataClass`. -/
structure DataClass where
  Version : String
  Package : String
  ClassBegin : String
  ClassEnd : String
  Model : String
  TableName : String
  DataClassName : String
  Properties : List Property
deriving DecidableEq, Repr

/-- Source `(*DataClass).AddItem`: appends the property. -/
def DataClass.AddItem (dataClass : DataClass) (property : Property) : DataClass :=
  { dataClass with Properties := dataClass.Properties ++ [property] }

/-- Source `version`. -/
def version : String := "0.0.5"

/-- The three functions of `github.com/chuckpreslar/inflect` the program calls. -/
structure Inflect where
  Singularize : String → String
  UpperCamelCase : String → String
  LowerCamelCase : String → String

/-- Go slice indexing `xs[i]`; `none` stands for the index-out-of-range panic. -/
def sliceGet {α : Type} (xs : List α) (i : Int) : Option α :=
  if i < 0 then none else xs[i.toNat]?

/-- Body of the `for rows.Next()` loop of `parseTableDefinition`, up to the property
handed to `AddItem`. -/
def rowProperty (inf : Inflect) (generateInterface : Bool) (tableName : String)
    (col : Column) : Except String Property :=
  let annotation := ""
  let annotation := if col.clnKey = "PRI" then annotation ++ " @get:Key " else annotation
  let annotation :=
    if col.clnExtra = "auto_increment" then annotation ++ " @get:Generated " else annotation
  let columnAnnotation := "@get:Column(name=\"" ++ col.clnName ++ "\", "
  match convertType col.clnName col.clnType col.clnNull col.clnDefault
      (tableName ++ "." ++ col.clnName) with
  | .error e => .error e
  | .ok (dataType, length, nullable) =>
    let columnAnnotation :=
      if length ≠ -1 then columnAnnotation ++ "length=" ++ Itoa length ++ ", "
      else columnAnnotation
    let nullableType := if nullable then "?" else ""
    let columnAnnotation :=
      if nullable then columnAnnotation ++ "nullable=true, "
      else columnAnnotation ++ "nullable=false, "
    let clnName :=
      if dataType = "Boolean" && HasPrefix col.clnName "is_" then
        Replace col.clnName "is_" "" 1
      else col.clnName
    let annotation := annotation ++ " " ++ TrimRight columnAnnotation ", " ++ ") "
    let field := "var " ++ inf.LowerCamelCase clnName ++ ": " ++ dataType ++ nullableType ++ ","
    let field := if generateInterface then TrimRight field "," else field
    .ok { Annotation := TrimSpace annotation, Field := field }

/-- The `for rows.Next()` loop of `parseTableDefinition`: one `AddItem` per row, in
order; a panic in the body ends the loop. -/
def rowsLoop (inf : Inflect) (generateInterface : Bool) (tableName : String) :
    List Column → DataClass → Except String DataClass
  | [], dataClass => .ok dataClass
  | col :: rest, dataClass =>
    match rowProperty inf generateInterface tableName col with
    | .error e => .error e
    | .ok property => rowsLoop inf generateInterface tableName rest (dataClass.AddItem property)

/-- Source `parseTableDefinition`; `rows` is the answer to `DESCRIBE <tableName>`. -/
def parseTableDefinition (inf : Inflect) (generateInterface : Bool) (kotlinPackage : String)
    (tableName : String) (rows : List Column) : Except String DataClass :=
  let dataClassName := inf.Singularize tableName
  let dataClassName := inf.UpperCamelCase dataClassName
  let classBegin := "data class " ++ dataClassName ++ " constructor("
  let classEnd := ")"
  let model := "ktdata"
  let classBegin := if generateInterface then "interface " ++ dataClassName ++ " \x7b" else classBegin
  let classEnd := if generateInterface then "\x7d" else classEnd
  let model := if generateInterface then "kt" else model
  let dataClass : DataClass :=
    { Version := version
      Package := kotlinPackage
      ClassBegin := classBegin
      ClassEnd := classEnd
      Model := model
      TableName := tableName
      DataClassName := dataClassName
      Properties := [] }
  match rowsLoop inf generateInterface tableName rows dataClass with
  | .error e => .error e
  | .ok dataClass =>
    let size : Int := dataClass.Properties.length
    match sliceGet dataClass.Properties (size - 1) with
    | none => .error "runtime error: index out of range [-1]"
    | some last =>
      .ok { dataClass with
            Properties := dataClass.Properties.set (size - 1).toNat
              { last with Field := TrimRight last.Field "," } }

/-! ## A concrete instance of the `inflect` parameter, for evaluating examples -/

/-- Upper-cases an ASCII lower-case letter. -/
def upperAscii (c : Char) : Char :=
  if 97 ≤ c.toNat && c.toNat ≤ 122 then Char.ofNat (c.toNat - 32) else c

/-- Camel-casing of a snake-case word: underscores are dropped and the character after
one is upper-cased; `up` says whether the next character is to be upper-cased. -/
def camelGo : Bool → List Char → List Char
  | _, [] => []
  | up, c :: cs =>
    if c = '_' then camelGo true cs
    else (if up then upperAscii c else c) :: camelGo false cs

/-- Drops one final `s`. -/
def dropFinalS (s : String) : String :=
  match s.data.reverse with
  | 's' :: r => ⟨r.reverse⟩
  | _ => s

/-- A simple instance of `Inflect` for plain lower-case snake-case names. -/
def simpleInflect : Inflect where
  Singularize := dropFinalS
  UpperCamelCase := fun s => ⟨camelGo true s.data⟩
  LowerCamelCase := fun s => ⟨camelGo false s.data⟩

/-- The table `users` of the end-to-end example, as `DESCRIBE users` reports it. -/
def usersRows : List Column :=
  [ { clnName := "id", clnType := "int(11)", clnNull := "NO", clnKey := "PRI",
      clnDefault := "", clnExtra := "auto_increment" },
    { clnName := "is_active", clnType := "tinyint(1)", clnNull := "NO", clnKey := "",
      clnDefault := "", clnExtra := "" },
    { clnName := "email", clnType := "varchar(255)", clnNull := "NO", clnKey := "",
      clnDefault := "", clnExtra := "" } ]

/-- The declared type matches one of the cases of the `switch` in `convertType`. -/
def supportedType (dbType : String) : Bool :=
  HasPrefix dbType "int" || HasPrefix dbType "tinyint" || HasPrefix dbType "smallint" ||
  HasPrefix dbType "bigint" || HasPrefix dbType "decimal" || HasPrefix dbType "float" ||
  HasPrefix dbType "double" || HasPrefix dbType "varchar" || HasPrefix dbType "char" ||
  HasPrefix dbType "enum" || dbType = "timestamp" || dbType = "date" || dbType = "datetime" ||
  dbType = "tinytext" || dbType = "text" || dbType = "mediumtext" || dbType = "longtext" ||
  dbType = "longblob" || HasPrefix dbType "binary"

/-- The paths through `convertType`: the guard on the column name, the cases of the
`switch` in source order, and the `default` case; each with the condition under which
it is taken and the value it returns. -/
inductive ConvertPath (dbClnName dbType dbNullable dbDefault column : String) :
    Except String (String × Int × Bool) → Prop
  | isNamed : HasPrefix dbClnName "is_" = true →
      ConvertPath dbClnName dbType dbNullable dbDefault column
        (.ok ("Boolean", -1, decide (dbNullable = "YES")))
  | int : HasPrefix dbClnName "is_" = false →
      (HasPrefix dbType "int" = true ∨ HasPrefix dbType "tinyint" = true ∨
        HasPrefix dbType "smallint" = true) →
      ConvertPath dbClnName dbType dbNullable dbDefault column
        (.ok ("Int", -1, decide (dbNullable = "YES")))
  | bigint : HasPrefix dbClnName "is_" = false → HasPrefix dbType "bigint" = true →
      ConvertPath dbClnName dbType dbNullable dbDefault column
        (.ok ("Long", -1, decide (dbNullable = "YES")))
  | decimal : HasPrefix dbClnName "is_" = false → HasPrefix dbType "decimal" = true →
      ConvertPath dbClnName dbType dbNullable dbDefault column
        (.ok ("java.math.BigDecimal", -1, decide (dbNullable = "YES")))
  | float : HasPrefix dbClnName "is_" = false → HasPrefix dbType "float" = true →
      ConvertPath dbClnName dbType dbNullable dbDefault column
        (.ok ("Float", -1, decide (dbNullable = "YES")))
  | double : HasPrefix dbClnName "is_" = false → HasPrefix dbType "double" = true →
      ConvertPath dbClnName dbType dbNullable dbDefault column
        (.ok ("Double", -1, decide (dbNullable = "YES")))
  | varchar : HasPrefix dbClnName "is_" = false →
      (HasPrefix dbType "varchar" = true ∨ HasPrefix dbType "char" = true) →
      ConvertPath dbClnName dbType dbNullable dbDefault column
        (.ok ("String", getDbTypeLength dbType, decide (dbNullable = "YES")))
  | enum : HasPrefix dbClnName "is_" = false → HasPrefix dbType "enum" = true →
      ConvertPath dbClnName dbType dbNullable dbDefault column
        (.ok ("String", -1, decide (dbNullable = "YES")))
  | timestamp : HasPrefix dbClnName "is_" = false → dbType = "timestamp" →
      ConvertPath dbClnName dbType dbNullable dbDefault column
        (.ok ("java.time.ZonedDateTime", -1,
          if dbDefault = "0000-00-00 00:00:00" then true else decide (dbNullable = "YES")))
  | date : HasPrefix dbClnName "is_" = false →
      (dbType = "date" ∨ dbType = "datetime") →
      ConvertPath dbClnName dbType dbNullable dbDefault column
        (.ok ("java.time.ZonedDateTime", -1, decide (dbNullable = "YES")))
  | tinytext : HasPrefix dbClnName "is_" = false → dbType = "tinytext" →
      ConvertPath dbClnName dbType dbNullable dbDefault column
        (.ok ("String", 255, decide (dbNullable = "YES")))
  | text : HasPrefix dbClnName "is_" = false → dbType = "text" →
      ConvertPath dbClnName dbType dbNullable dbDefault column
        (.ok ("String", 65535, decide (dbNullable = "YES")))
  | mediumtext : HasPrefix dbClnName "is_" = false → dbType = "mediumtext" →
      ConvertPath dbClnName dbType dbNullable dbDefault column
        (.ok ("String", 16777215, decide (dbNullable = "YES")))
  | longtext : HasPrefix dbClnName "is_" = false → dbType = "longtext" →
      ConvertPath dbClnName dbType dbNullable dbDefault column
        (.ok ("String", -1, decide (dbNullable = "YES")))
  | longblob : HasPrefix dbClnName "is_" = false →
      (dbType = "longblob" ∨ HasPrefix dbType "binary" = true) →
      ConvertPath dbClnName dbType dbNullable dbDefault column
        (.ok ("ByteArray", -1, decide (dbNullable = "YES")))
  | unsupported : HasPrefix dbClnName "is_" = false → supportedType dbType = false →
      ConvertPath dbClnName dbType dbNullable dbDefault column
        (.error ("Type not supported: " ++ dbType ++ " - " ++ column))

/-- The `dataType` component of a result of `convertType`; `none` after a panic. -/
def dataTypeOf : Except String (String × Int × Bool) → Option String
  | .ok (t, _, _) => some t
  | .error _ => none

/-- The `length` component of a result of `convertType`; `none` after a panic. -/
def lengthOf : Except String (String × Int × Bool) → Option Int
  | .ok (_, l, _) => some l
  | .error _ => none

/-- The `nullable` component of a result of `convertType`; `none` after a panic. -/
def nullableOf : Except String (String × Int × Bool) → Option Bool
  | .ok (_, _, b) => some b
  | .error _ => none

/-- The `case` clauses of the `switch` in `convertType`, in source order: the condition
of each clause and the value the function returns when that clause is taken. -/
def switchCases (dbType dbNullable dbDefault : String) :
    List (Bool × (String × Int × Bool)) :=
  let length : Int := -1
  let nullable : Bool := decide (dbNullable = "YES")
  [ (HasPrefix dbType "int" || HasPrefix dbType "tinyint" || HasPrefix dbType "smallint",
      ("Int", length, nullable)),
    (HasPrefix dbType "bigint", ("Long", length, nullable)),
    (HasPrefix dbType "decimal", ("java.math.BigDecimal", length, nullable)),
    (HasPrefix dbType "float", ("Float", length, nullable)),
    (HasPrefix dbType "double", ("Double", length, nullable)),
    (HasPrefix dbType "varchar" || HasPrefix dbType "char",
      ("String", getDbTypeLength dbType, nullable)),
    (HasPrefix dbType "enum", ("String", length, nullable)),
    (decide (dbType = "timestamp"),
      ("java.time.ZonedDateTime", length,
        if dbDefault = "0000-00-00 00:00:00" then true else nullable)),
    (decide (dbType = "date") || decide (dbType = "datetime"),
      ("java.time.ZonedDateTime", length, nullable)),
    (decide (dbType = "tinytext"), ("String", 255, nullable)),
    (decide (dbType = "text"), ("String", 65535, nullable)),
    (decide (dbType = "mediumtext"), ("String", 16777215, nullable)),
    (decide (dbType = "longtext"), ("String", length, nullable)),
    (decide (dbType = "longblob") || HasPrefix dbType "binary", ("ByteArray", length, nullable)) ]

/-- A `switch` without fall-through over a list of clauses: the value of the first
clause whose condition holds, `none` when no condition holds. -/
def firstMatch {α : Type} : List (Bool × α) → Option α
  | [] => none
  | (c, r) :: rest => if c then some r else firstMatch rest

/-- The function `convertType` with the clauses of its `switch` listed in the given
order: the guard on the column name, then the first clause that matches, then the
`default` clause. -/
def convertTypeWith (clauses : List (Bool × (String × Int × Bool)))
    (dbClnName dbType dbNullable column : String) : Except String (String × Int × Bool) :=
  if HasPrefix dbClnName "is_" then
    .ok ("Boolean", -1, decide (dbNullable = "YES"))
  else
    match firstMatch clauses with
    | some r => .ok r
    | none => .error ("Type not supported: " ++ dbType ++ " - " ++ column)

/-! ## Auxiliary facts -/

theorem hasPrefix_iff (s pre : String) :
    HasPrefix s pre = true ↔ ∃ t, s.data = pre.data ++ t := by
  unfold HasPrefix
  rw [List.isPrefixOf_iff_prefix]
  constructor
  · rintro ⟨t, ht⟩
    exact ⟨t, ht.symm⟩
  · rintro ⟨t, ht⟩
    exact ⟨t, ht.symm⟩

theorem hasPrefix_eq_false_iff (s pre : String) :
    HasPrefix s pre = false ↔ ¬ pre.data <+: s.data := by
  unfold HasPrefix
  rw [← List.isPrefixOf_iff_prefix, Bool.not_eq_true]

theorem not_is_named (dbClnName : String) (h : HasPrefix dbClnName "is_" = false) :
    ¬ ['i', 's', '_'] <+: dbClnName.data :=
  (hasPrefix_eq_false_iff dbClnName "is_").mp h

theorem isDigit_not_special (c : Char) (h : isDigit c = true) :
    c ≠ '-' ∧ c ≠ '+' ∧ c ≠ '(' ∧ c ≠ ')' := by
  refine ⟨?_, ?_, ?_, ?_⟩ <;> (rintro rfl; revert h; decide)

theorem Atoi_digits (ds : List Char) (hne : ds ≠ []) (hd : ds.all isDigit = true) :
    Atoi ⟨ds⟩ = if (digitsValue ds : Int) ≤ maxInt then some (digitsValue ds : Int) else none := by
  cases ds with
  | nil => exact absurd rfl hne
  | cons c cs =>
    have hc : isDigit c = true := by
      simp only [List.all_cons, Bool.and_eq_true] at hd
      exact hd.1
    obtain ⟨h1, h2, -, -⟩ := isDigit_not_special c hc
    have hmin : minInt ≤ (digitsValue (c :: cs) : Int) := by
      have : (0 : Int) ≤ (digitsValue (c :: cs) : Int) := Int.ofNat_nonneg _
      have hm : minInt ≤ 0 := by decide
      exact le_trans hm this
    simp only [Atoi, h1, h2, if_false, hd]
    simp [hmin]

theorem matchParenDigitsAt_digits (ds post : List Char) (hne : ds ≠ [])
    (hd : ds.all isDigit = true) :
    matchParenDigitsAt ('(' :: (ds ++ ')' :: post)) = some ds := by
  have hall : ∀ a ∈ ds, isDigit a = true := by simpa using hd
  have hclose : isDigit ')' = false := by decide
  simp [matchParenDigitsAt, List.takeWhile_append_of_pos hall, List.dropWhile_append_of_pos hall,
    List.takeWhile_cons, List.dropWhile_cons, hclose, hne]

theorem matchParenDigitsAt_sound (l ds : List Char) (h : matchParenDigitsAt l = some ds) :
    ∃ post, l = '(' :: (ds ++ ')' :: post) ∧ ds ≠ [] ∧ ds.all isDigit = true := by
  cases l with
  | nil => simp [matchParenDigitsAt] at h
  | cons c rest =>
    simp only [matchParenDigitsAt] at h
    split_ifs at h with hc
    subst hc
    have hsplit := List.takeWhile_append_dropWhile isDigit rest
    cases hdrop : rest.dropWhile isDigit with
    | nil => simp [hdrop] at h
    | cons d post =>
      simp only [hdrop] at h
      split_ifs at h with hd
      obtain ⟨rfl, hne⟩ := hd
      simp only [Option.some.injEq] at h
      subst h
      refine ⟨post, ?_, hne, ?_⟩
      · rw [← hdrop, hsplit]
      · simp only [List.all_eq_true]
        intro a ha
        exact List.mem_takeWhile_imp ha

theorem findParenDigits_sound (l ds : List Char) (h : findParenDigits l = some ds) :
    ∃ pre post, l = pre ++ '(' :: (ds ++ ')' :: post) ∧ ds ≠ [] ∧ ds.all isDigit = true := by
  induction l with
  | nil => simp [findParenDigits] at h
  | cons c cs ih =>
    simp only [findParenDigits] at h
    cases hm : matchParenDigitsAt (c :: cs) with
    | some ds' =>
      simp only [hm, Option.some.injEq] at h
      subst h
      obtain ⟨post, hl, hne, hd⟩ := matchParenDigitsAt_sound _ _ hm
      exact ⟨[], post, by simpa using hl, hne, hd⟩
    | none =>
      simp only [hm] at h
      obtain ⟨pre, post, hl, hne, hd⟩ := ih h
      exact ⟨c :: pre, post, by simp [hl], hne, hd⟩

theorem getDbTypeLength_cases (dbType : String) :
    getDbTypeLength dbType = -1 ∨
    ∃ pre ds post, dbType.data = pre ++ '(' :: (ds ++ ')' :: post) ∧ ds ≠ [] ∧
      ds.all isDigit = true ∧ (digitsValue ds : Int) ≤ maxInt ∧
      getDbTypeLength dbType = (digitsValue ds : Int) := by
  unfold getDbTypeLength FindStringSubmatch
  cases hf : findParenDigits dbType.data with
  | none => left; simp
  | some ds =>
    obtain ⟨pre, post, hl, hne, hd⟩ := findParenDigits_sound _ _ hf
    simp only [Atoi_digits ds hne hd]
    by_cases hle : (digitsValue ds : Int) ≤ maxInt
    · right
      exact ⟨pre, ds, post, hl, hne, hd, hle, by simp [hle]⟩
    · left
      simp [hle]

theorem convertType_path (dbClnName dbType dbNullable dbDefault column : String) :
    ConvertPath dbClnName dbType dbNullable dbDefault column
      (convertType dbClnName dbType dbNullable dbDefault column) := by
  unfold convertType
  dsimp only
  by_cases c0 : HasPrefix dbClnName "is_" = true
  · rw [if_pos c0]
    exact .isNamed c0
  rw [if_neg c0]
  have hn : HasPrefix dbClnName "is_" = false := by simpa using c0
  by_cases c1 : (HasPrefix dbType "int" || HasPrefix dbType "tinyint" ||
      HasPrefix dbType "smallint") = true
  · rw [if_pos c1]
    exact .int hn (by simpa [or_assoc] using c1)
  rw [if_neg c1]
  by_cases c2 : HasPrefix dbType "bigint" = true
  · rw [if_pos c2]
    exact .bigint hn c2
  rw [if_neg c2]
  by_cases c3 : HasPrefix dbType "decimal" = true
  · rw [if_pos c3]
    exact .decimal hn c3
  rw [if_neg c3]
  by_cases c4 : HasPrefix dbType "float" = true
  · rw [if_pos c4]
    exact .float hn c4
  rw [if_neg c4]
  by_cases c5 : HasPrefix dbType "double" = true
  · rw [if_pos c5]
    exact .double hn c5
  rw [if_neg c5]
  by_cases c6 : (HasPrefix dbType "varchar" || HasPrefix dbType "char") = true
  · rw [if_pos c6]
    exact .varchar hn (by simpa using c6)
  rw [if_neg c6]
  by_cases c7 : HasPrefix dbType "enum" = true
  · rw [if_pos c7]
    exact .enum hn c7
  rw [if_neg c7]
  by_cases c8 : dbType = "timestamp"
  · rw [if_pos c8]
    exact .timestamp hn c8
  rw [if_neg c8]
  by_cases c9 : (decide (dbType = "date") || decide (dbType = "datetime")) = true
  · rw [if_pos c9]
    exact .date hn (by simpa using c9)
  rw [if_neg c9]
  by_cases c10 : dbType = "tinytext"
  · rw [if_pos c10]
    exact .tinytext hn c10
  rw [if_neg c10]
  by_cases c11 : dbType = "text"
  · rw [if_pos c11]
    exact .text hn c11
  rw [if_neg c11]
  by_cases c12 : dbType = "mediumtext"
  · rw [if_pos c12]
    exact .mediumtext hn c12
  rw [if_neg c12]
  by_cases c13 : dbType = "longtext"
  · rw [if_pos c13]
    exact .longtext hn c13
  rw [if_neg c13]
  by_cases c14 : (decide (dbType = "longblob") || HasPrefix dbType "binary") = true
  · rw [if_pos c14]
    exact .longblob hn (by simpa using c14)
  rw [if_neg c14]
  refine .unsupported hn ?_
  simp only [Bool.or_eq_true, not_or, Bool.not_eq_true, decide_eq_true_eq, decide_eq_false_iff_not] at c1 c2 c3 c4 c5 c6 c7 c9 c14
  simp [supportedType, c1, c2, c3, c4, c5, c6, c7, c8, c9, c10, c11, c12, c13, c14]

theorem digitsValue_append_singleton (xs : List Char) (c : Char) :
    digitsValue (xs ++ [c]) = 10 * digitsValue xs + (c.toNat - 48) := by
  simp [digitsValue, List.foldl_append]

theorem digitChar_digit (k : Nat) (hk : k < 10) :
    isDigit (Nat.digitChar k) = true ∧ (Nat.digitChar k).toNat - 48 = k := by
  interval_cases k <;> decide

theorem toDigitsCore_digits (fuel : Nat) :
    ∀ (n : Nat) (acc : List Char), n < fuel →
      ∃ xs, Nat.toDigitsCore 10 fuel n acc = xs ++ acc ∧ xs ≠ [] ∧
        xs.all isDigit = true ∧ digitsValue xs = n := by
  induction fuel with
  | zero => intro n acc h; omega
  | succ fuel ih =>
    intro n acc h
    obtain ⟨hdig, hval⟩ := digitChar_digit (n % 10) (Nat.mod_lt _ (by decide))
    unfold Nat.toDigitsCore
    dsimp only
    by_cases hz : n / 10 = 0
    · rw [if_pos hz]
      refine ⟨[Nat.digitChar (n % 10)], rfl, by simp, by simp [hdig], ?_⟩
      simp only [digitsValue, List.foldl_cons, List.foldl_nil, hval]
      omega
    · rw [if_neg hz]
      obtain ⟨xs, hxs, hne, hall, hv⟩ := ih (n / 10) (Nat.digitChar (n % 10) :: acc) (by omega)
      refine ⟨xs ++ [Nat.digitChar (n % 10)], by simp [hxs], by simp, ?_, ?_⟩
      · simp only [List.all_append, hall, List.all_cons, hdig, List.all_nil, Bool.and_self]
      · rw [digitsValue_append_singleton, hv, hval]
        omega

theorem repr_digits (n : Nat) :
    (Nat.repr n).data ≠ [] ∧ (Nat.repr n).data.all isDigit = true ∧
      digitsValue (Nat.repr n).data = n := by
  obtain ⟨xs, hxs, hne, hall, hv⟩ := toDigitsCore_digits (n + 1) n [] (Nat.lt_succ_self n)
  have : (Nat.repr n).data = xs := by
    simp [Nat.repr, Nat.toDigits, hxs, List.asString]
  rw [this]
  exact ⟨hne, hall, hv⟩

theorem findParenDigits_skip (pre rest : List Char) (h : '(' ∉ pre) :
    findParenDigits (pre ++ rest) = findParenDigits rest := by
  induction pre with
  | nil => rfl
  | cons c cs ih =>
    have hc : c ≠ '(' := fun e => h (by simp [e])
    have hcs : '(' ∉ cs := fun e => h (by simp [e])
    simp [findParenDigits, matchParenDigitsAt, hc, ih hcs]

theorem findParenDigits_digits (ds post : List Char) (hne : ds ≠ [])
    (hd : ds.all isDigit = true) :
    findParenDigits ('(' :: (ds ++ ')' :: post)) = some ds := by
  simp only [findParenDigits, matchParenDigitsAt_digits ds post hne hd]

theorem getDbTypeLength_sized (pre ds post : List Char) (hpre : '(' ∉ pre) (hne : ds ≠ [])
    (hd : ds.all isDigit = true) (hfit : (digitsValue ds : Int) ≤ maxInt) :
    getDbTypeLength ⟨pre ++ '(' :: (ds ++ ')' :: post)⟩ = (digitsValue ds : Int) := by
  simp only [getDbTypeLength, FindStringSubmatch, findParenDigits_skip pre _ hpre,
    findParenDigits_digits ds post hne hd, Atoi_digits ds hne hd, if_pos hfit]

theorem convertType_error_of_unsupported (dbClnName dbType dbNullable dbDefault column : String)
    (hn : HasPrefix dbClnName "is_" = false) (hty : supportedType dbType = false) :
    convertType dbClnName dbType dbNullable dbDefault column
      = .error ("Type not supported: " ++ dbType ++ " - " ++ column) := by
  have hp := convertType_path dbClnName dbType dbNullable dbDefault column
  generalize convertType dbClnName dbType dbNullable dbDefault column = r at hp ⊢
  simp only [supportedType, Bool.or_eq_false_iff, decide_eq_false_iff_not] at hty
  cases hp with
  | unsupported _ _ => rfl
  | isNamed h0 => rw [hn] at h0; cases h0
  | _ => rename_i hc; simp [hty] at hc

theorem convertType_ok_of_supported (dbClnName dbType dbNullable dbDefault column : String)
    (hty : supportedType dbType = true) :
    ∃ r, convertType dbClnName dbType dbNullable dbDefault column = .ok r := by
  have hp := convertType_path dbClnName dbType dbNullable dbDefault column
  generalize convertType dbClnName dbType dbNullable dbDefault column = r at hp ⊢
  cases hp with
  | unsupported _ hu => rw [hty] at hu; cases hu
  | _ => exact ⟨_, rfl⟩

theorem rowProperty_error_of_unsupported (inf : Inflect) (generateInterface : Bool)
    (tableName : String) (col : Column) (hn : HasPrefix col.clnName "is_" = false)
    (hty : supportedType col.clnType = false) :
    ∃ e, rowProperty inf generateInterface tableName col = .error e := by
  unfold rowProperty
  rw [convertType_error_of_unsupported _ _ _ _ _ hn hty]
  exact ⟨_, rfl⟩

theorem rowProperty_ok_of_supported (inf : Inflect) (generateInterface : Bool)
    (tableName : String) (col : Column) (hty : supportedType col.clnType = true) :
    ∃ p, rowProperty inf generateInterface tableName col = .ok p := by
  obtain ⟨⟨t, l, n⟩, hr⟩ := convertType_ok_of_supported col.clnName col.clnType col.clnNull
    col.clnDefault (tableName ++ "." ++ col.clnName) hty
  unfold rowProperty
  rw [hr]
  exact ⟨_, rfl⟩

theorem rowsLoop_error_of_mem (inf : Inflect) (generateInterface : Bool) (tableName : String)
    (col : Column) (hcol : ∃ e, rowProperty inf generateInterface tableName col = .error e) :
    ∀ (rows : List Column) (dataClass : DataClass), col ∈ rows →
      ∃ e, rowsLoop inf generateInterface tableName rows dataClass = .error e := by
  intro rows
  induction rows with
  | nil => intro _ h; cases h
  | cons c rest ih =>
    intro dataClass hmem
    unfold rowsLoop
    cases hc : rowProperty inf generateInterface tableName c with
    | error e => exact ⟨e, rfl⟩
    | ok p =>
      rcases List.mem_cons.mp hmem with rfl | hrest
      · obtain ⟨e, he⟩ := hcol
        rw [hc] at he
        cases he
      · exact ih _ hrest

theorem rowsLoop_ok (inf : Inflect) (generateInterface : Bool) (tableName : String) :
    ∀ (rows : List Column) (dataClass : DataClass),
      (∀ c ∈ rows, ∃ p, rowProperty inf generateInterface tableName c = .ok p) →
      ∃ ps, List.Forall₂ (fun c p => rowProperty inf generateInterface tableName c = .ok p)
          rows ps ∧
        rowsLoop inf generateInterface tableName rows dataClass
          = .ok { dataClass with Properties := dataClass.Properties ++ ps } := by
  intro rows
  induction rows with
  | nil =>
    intro dataClass _
    exact ⟨[], List.Forall₂.nil, by simp [rowsLoop]⟩
  | cons c rest ih =>
    intro dataClass h
    obtain ⟨p, hp⟩ := h c (List.mem_cons_self _ _)
    obtain ⟨ps, hps, hloop⟩ := ih (dataClass.AddItem p)
      (fun c' hc' => h c' (List.mem_cons_of_mem _ hc'))
    refine ⟨p :: ps, List.Forall₂.cons hp hps, ?_⟩
    unfold rowsLoop
    rw [hp]
    dsimp only
    rw [hloop]
    simp [DataClass.AddItem]


theorem rdropWhile_last_false {α : Type} (p : α → Bool) (l t : List α) (x : α)
    (h : l.rdropWhile p = t ++ [x]) : p x = false := by
  have hne : l.rdropWhile p ≠ [] := by rw [h]; simp
  have hlast := List.rdropWhile_last_not p l hne
  simp only [h, List.getLast_append_singleton] at hlast
  simpa using hlast

theorem trimRight_not_hasSuffix (s : String) (c : Char) :
    HasSuffix (TrimRight s ⟨[c]⟩) ⟨[c]⟩ = false := by
  rw [← Bool.not_eq_true]
  intro h
  unfold HasSuffix TrimRight at h
  rw [List.isSuffixOf_iff_suffix] at h
  obtain ⟨t, ht⟩ := h
  have := rdropWhile_last_false _ _ _ _ ht.symm
  simp at this

theorem hasSuffix_append_self (s t : String) : HasSuffix (s ++ t) t = true := by
  unfold HasSuffix
  rw [List.isSuffixOf_iff_suffix]
  exact ⟨s.data, by simp⟩


theorem sliceGet_last {α : Type} (xs : List α) (hne : xs ≠ []) :
    sliceGet xs ((xs.length : Int) - 1) = some (xs.getLast hne) ∧
    ((xs.length : Int) - 1).toNat = xs.length - 1 := by
  have hpos : 0 < xs.length := List.length_pos.mpr hne
  have hnat : ((xs.length : Int) - 1).toNat = xs.length - 1 := by omega
  refine ⟨?_, hnat⟩
  unfold sliceGet
  have hnn : ¬ ((xs.length : Int) - 1 < 0) := by omega
  rw [if_neg hnn, hnat, List.getLast_eq_getElem, List.getElem?_eq_getElem]

theorem forall₂_getElem? {α β : Type} (R : α → β → Prop) :
    ∀ (l₁ : List α) (l₂ : List β), List.Forall₂ R l₁ l₂ →
      ∀ (i : Nat) (a : α), l₁[i]? = some a → ∃ b, l₂[i]? = some b ∧ R a b := by
  intro l₁ l₂ h
  induction h with
  | nil => intro i a hi; simp at hi
  | cons hab _ ih =>
    intro i a hi
    cases i with
    | zero =>
      simp only [List.getElem?_cons_zero, Option.some.injEq] at hi
      subst hi
      exact ⟨_, by simp, hab⟩
    | succ j =>
      simp only [List.getElem?_cons_succ] at hi
      obtain ⟨b, hb, hr⟩ := ih j a hi
      exact ⟨b, by simpa using hb, hr⟩

theorem parseTableDefinition_ok (inf : Inflect) (generateInterface : Bool)
    (kotlinPackage tableName : String) (rows : List Column) (hne : rows ≠ [])
    (h : ∀ c ∈ rows, ∃ p, rowProperty inf generateInterface tableName c = .ok p) :
    ∃ (ps : List Property) (hps : ps ≠ []),
      List.Forall₂ (fun c p => rowProperty inf generateInterface tableName c = .ok p) rows ps ∧
      parseTableDefinition inf generateInterface kotlinPackage tableName rows = .ok
        { Version := version
          Package := kotlinPackage
          ClassBegin :=
            if generateInterface then
              "interface " ++ inf.UpperCamelCase (inf.Singularize tableName) ++ " \x7b"
            else "data class " ++ inf.UpperCamelCase (inf.Singularize tableName) ++ " constructor("
          ClassEnd := if generateInterface then "\x7d" else ")"
          Model := if generateInterface then "kt" else "ktdata"
          TableName := tableName
          DataClassName := inf.UpperCamelCase (inf.Singularize tableName)
          Properties := ps.set (ps.length - 1)
            { Annotation := Property.Annotation (ps.getLast hps)
              Field := TrimRight (ps.getLast hps).Field "," } } := by
  unfold parseTableDefinition
  dsimp only
  obtain ⟨ps, hfa, hloop⟩ := rowsLoop_ok inf generateInterface tableName rows
    { Version := version
      Package := kotlinPackage
      ClassBegin :=
        if generateInterface then
          "interface " ++ inf.UpperCamelCase (inf.Singularize tableName) ++ " \x7b"
        else "data class " ++ inf.UpperCamelCase (inf.Singularize tableName) ++ " constructor("
      ClassEnd := if generateInterface then "\x7d" else ")"
      Model := if generateInterface then "kt" else "ktdata"
      TableName := tableName
      DataClassName := inf.UpperCamelCase (inf.Singularize tableName)
      Properties := [] } h
  have hps : ps ≠ [] := by
    intro e
    subst e
    cases hfa
    exact hne rfl
  refine ⟨ps, hps, hfa, ?_⟩
  rw [hloop]
  dsimp only
  simp only [List.nil_append]
  obtain ⟨hget, hidx⟩ := sliceGet_last ps hps
  rw [hget, hidx]

theorem set_last_getElem? (ps : List Property) (new : Property) (i : Nat)
    (p : Property) (hp : ps[i]? = some p) :
    (ps.set (ps.length - 1) new)[i]? = some (if i + 1 = ps.length then new else p) := by
  have hlt : i < ps.length := by
    rcases Nat.lt_or_ge i ps.length with h | h
    · exact h
    · rw [List.getElem?_eq_none h] at hp; cases hp
  by_cases hi : i + 1 = ps.length
  · have : ps.length - 1 = i := by omega
    rw [if_pos hi, this, List.getElem?_set_self hlt]
  · have : ps.length - 1 ≠ i := by omega
    rw [if_neg hi, List.getElem?_set_ne this, hp]

theorem set_last_getLast? (ps : List Property) (hps : ps ≠ []) (new : Property) :
    (ps.set (ps.length - 1) new).getLast? = some new := by
  have hpos : 0 < ps.length := List.length_pos.mpr hps
  rw [List.getLast?_eq_getElem?, List.length_set, List.getElem?_set_self (by omega)]

theorem getLast_of_getElem? (ps : List Property) (hps : ps ≠ []) (i : Nat) (p : Property)
    (hp : ps[i]? = some p) (hi : i + 1 = ps.length) : ps.getLast hps = p := by
  have : ps.length - 1 = i := by omega
  have h2 : ps[ps.length - 1]? = some (ps.getLast hps) := by
    rw [List.getLast_eq_getElem, List.getElem?_eq_getElem]
  rw [this, hp] at h2
  exact (Option.some.inj h2).symm

theorem rowProperty_interface_field (inf : Inflect) (tableName : String) (col : Column)
    (p : Property) (h : rowProperty inf true tableName col = .ok p) :
    HasSuffix p.Field "," = false := by
  unfold rowProperty at h
  cases hc : convertType col.clnName col.clnType col.clnNull col.clnDefault
      (tableName ++ "." ++ col.clnName) with
  | error e => rw [hc] at h; cases h
  | ok r =>
    obtain ⟨t, l, n⟩ := r
    rw [hc] at h
    dsimp only at h
    simp only [if_true, Except.ok.injEq] at h
    subst h
    exact trimRight_not_hasSuffix _ ','

theorem rowProperty_class_field (inf : Inflect) (tableName : String) (col : Column)
    (p : Property) (h : rowProperty inf false tableName col = .ok p) :
    HasSuffix p.Field "," = true := by
  unfold rowProperty at h
  cases hc : convertType col.clnName col.clnType col.clnNull col.clnDefault
      (tableName ++ "." ++ col.clnName) with
  | error e => rw [hc] at h; cases h
  | ok r =>
    obtain ⟨t, l, n⟩ := r
    rw [hc] at h
    dsimp only at h
    simp only [Bool.false_eq_true, if_false, Except.ok.injEq] at h
    subst h
    exact hasSuffix_append_self _ ","

theorem forall₂_of_mem_right {α β : Type} (R : α → β → Prop) :
    ∀ (l₁ : List α) (l₂ : List β), List.Forall₂ R l₁ l₂ →
      ∀ b ∈ l₂, ∃ a ∈ l₁, R a b := by
  intro l₁ l₂ h
  induction h with
  | nil => intro b hb; cases hb
  | cons hab _ ih =>
    intro b hb
    rcases List.mem_cons.mp hb with rfl | hb'
    · exact ⟨_, List.mem_cons_self _ _, hab⟩
    · obtain ⟨a, ha, hr⟩ := ih b hb'
      exact ⟨a, List.mem_cons_of_mem _ ha, hr⟩

theorem findParenDigits_skip_unmatched (rest : List Char) :
    ∀ pre : List Char,
      (∀ a b : List Char, pre = a ++ b → b ≠ [] → matchParenDigitsAt (b ++ rest) = none) →
      findParenDigits (pre ++ rest) = findParenDigits rest := by
  intro pre
  induction pre with
  | nil => intro _; rfl
  | cons c cs ih =>
    intro h
    have h0 := h [] (c :: cs) rfl (by simp)
    have hrec := ih (fun a b hab hb => h (c :: a) b (by simp [hab]) hb)
    simp only [List.cons_append] at h0 ⊢
    simp only [findParenDigits, h0, hrec]

theorem findParenDigits_first (l pre ds post : List Char)
    (hl : l = pre ++ '(' :: (ds ++ ')' :: post)) (hne : ds ≠ [])
    (hd : ds.all isDigit = true)
    (hmin : ∀ pre' ds' post' : List Char, l = pre' ++ '(' :: (ds' ++ ')' :: post') →
      ds' ≠ [] → ds'.all isDigit = true → pre.length ≤ pre'.length) :
    findParenDigits l = some ds := by
  subst hl
  rw [findParenDigits_skip_unmatched, findParenDigits_digits ds post hne hd]
  intro a b hab hb
  cases hm : matchParenDigitsAt (b ++ '(' :: (ds ++ ')' :: post)) with
  | none => rfl
  | some ds' =>
    exfalso
    obtain ⟨post', hdec, hne', hd'⟩ := matchParenDigitsAt_sound _ _ hm
    have hle := hmin a ds' post' (by rw [hab, List.append_assoc, hdec]) hne' hd'
    have hlen : pre.length = a.length + b.length := by rw [hab, List.length_append]
    have hbpos : 0 < b.length := List.length_pos.mpr hb
    omega

theorem length_le_of_no_paren (pre pre' x y : List Char) (hpre : '(' ∉ pre)
    (h : pre ++ '(' :: x = pre' ++ '(' :: y) : pre.length ≤ pre'.length := by
  rcases List.append_eq_append_iff.mp h with ⟨a, ha, -⟩ | ⟨c, hc, hc'⟩
  · rw [ha, List.length_append]
    omega
  · cases c with
    | nil => simp [hc]
    | cons d c' =>
      simp only [List.cons_append, List.cons.injEq] at hc'
      exact absurd (by rw [hc, ← hc'.1]; simp) hpre

theorem rdropWhile_snoc_tail {α : Type} (p : α → Bool) (xs zs : List α) (y : α)
    (hy : p y = false) (hz : ∀ z ∈ zs, p z = true) :
    List.rdropWhile p (xs ++ y :: zs) = xs ++ [y] := by
  have hz' : ∀ z ∈ zs.reverse, p z = true := fun z hzm => hz z (List.mem_reverse.mp hzm)
  simp only [List.rdropWhile, List.reverse_append, List.reverse_cons, List.append_assoc,
    List.dropWhile_append_of_pos hz', List.singleton_append, List.dropWhile_cons, hy,
    Bool.false_eq_true, if_false, List.reverse_reverse]

theorem trimRight_nullable_true (x : String) :
    TrimRight (x ++ "nullable=true, ") ", " = x ++ "nullable=true" := by
  apply String.ext
  have h := rdropWhile_snoc_tail (fun c => (", " : String).data.contains c)
    (x.data ++ ['n', 'u', 'l', 'l', 'a', 'b', 'l', 'e', '=', 't', 'r', 'u']) [',', ' '] 'e'
    (by decide) (by decide)
  simpa [TrimRight] using h

theorem trimRight_nullable_false (x : String) :
    TrimRight (x ++ "nullable=false, ") ", " = x ++ "nullable=false" := by
  apply String.ext
  have h := rdropWhile_snoc_tail (fun c => (", " : String).data.contains c)
    (x.data ++ ['n', 'u', 'l', 'l', 'a', 'b', 'l', 'e', '=', 'f', 'a', 'l', 's']) [',', ' '] 'e'
    (by decide) (by decide)
  simpa [TrimRight] using h

theorem trimSpace_padded (m : List Char) (h₁ : ∃ r₁, m = '@' :: r₁)
    (h₂ : ∃ r₂, m = r₂ ++ [')']) : TrimSpace ⟨' ' :: (m ++ [' '])⟩ = ⟨m⟩ := by
  obtain ⟨r₁, h₁⟩ := h₁
  obtain ⟨r₂, h₂⟩ := h₂
  apply String.ext
  have hsp : isSpace ' ' = true := by decide
  have hat : isSpace '@' = false := by decide
  have hcl : isSpace ')' = false := by decide
  have hdrop : List.dropWhile isSpace (' ' :: (m ++ [' '])) = m ++ [' '] := by
    rw [h₁]
    simp [List.dropWhile_cons, hsp, hat]
  simp only [TrimSpace, hdrop]
  rw [h₂, List.append_assoc]
  exact rdropWhile_snoc_tail isSpace r₂ [' '] ')' hcl (by simp [hsp])

theorem rowProperty_of_convert (inf : Inflect) (generateInterface : Bool) (tableName : String)
    (col : Column) (dataType : String) (length : Int) (nullable : Bool)
    (hc : convertType col.clnName col.clnType col.clnNull col.clnDefault
      (tableName ++ "." ++ col.clnName) = .ok (dataType, length, nullable)) :
    rowProperty inf generateInterface tableName col = .ok
      { Annotation :=
          TrimSpace
            ((if col.clnExtra = "auto_increment" then
                (if col.clnKey = "PRI" then "" ++ " @get:Key " else "") ++ " @get:Generated "
              else (if col.clnKey = "PRI" then "" ++ " @get:Key " else "")) ++ " " ++
              TrimRight
                (if nullable = true then
                  (if length ≠ -1 then
                    "@get:Column(name=\"" ++ col.clnName ++ "\", " ++ "length=" ++ Itoa length ++ ", "
                  else "@get:Column(name=\"" ++ col.clnName ++ "\", ") ++ "nullable=true, "
                else
                  (if length ≠ -1 then
                    "@get:Column(name=\"" ++ col.clnName ++ "\", " ++ "length=" ++ Itoa length ++ ", "
                  else "@get:Column(name=\"" ++ col.clnName ++ "\", ") ++ "nullable=false, ")
                ", " ++ ") ")
        Field :=
          if generateInterface = true then
            TrimRight
              ("var " ++ inf.LowerCamelCase
                  (if (decide (dataType = "Boolean") && HasPrefix col.clnName "is_") = true then
                    Replace col.clnName "is_" "" 1
                  else col.clnName) ++ ": " ++ dataType ++ (if nullable = true then "?" else "")
                ++ ",") ","
          else
            "var " ++ inf.LowerCamelCase
                (if (decide (dataType = "Boolean") && HasPrefix col.clnName "is_") = true then
                  Replace col.clnName "is_" "" 1
                else col.clnName) ++ ": " ++ dataType ++ (if nullable = true then "?" else "")
              ++ "," } := by
  unfold rowProperty
  dsimp only
  rw [hc]

theorem annotation_text (clnKey clnExtra clnName : String) (length : Int) (nullable : Bool) :
    TrimSpace
      ((if clnExtra = "auto_increment" then
          (if clnKey = "PRI" then "" ++ " @get:Key " else "") ++ " @get:Generated "
        else (if clnKey = "PRI" then "" ++ " @get:Key " else "")) ++ " " ++
        TrimRight
          (if nullable = true then
            (if length ≠ -1 then
              "@get:Column(name=\"" ++ clnName ++ "\", " ++ "length=" ++ Itoa length ++ ", "
            else "@get:Column(name=\"" ++ clnName ++ "\", ") ++ "nullable=true, "
          else
            (if length ≠ -1 then
              "@get:Column(name=\"" ++ clnName ++ "\", " ++ "length=" ++ Itoa length ++ ", "
            else "@get:Column(name=\"" ++ clnName ++ "\", ") ++ "nullable=false, ")
          ", " ++ ") ")
    = (if clnKey = "PRI" then "@get:Key  " else "") ++
      (if clnExtra = "auto_increment" then "@get:Generated  " else "") ++
      "@get:Column(name=\"" ++ clnName ++ "\", " ++
      (if length ≠ -1 then "length=" ++ Itoa length ++ ", " else "") ++
      (if nullable = true then "nullable=true)" else "nullable=false)") := by
  have hT : TrimRight
          (if nullable = true then
            (if length ≠ -1 then
              "@get:Column(name=\"" ++ clnName ++ "\", " ++ "length=" ++ Itoa length ++ ", "
            else "@get:Column(name=\"" ++ clnName ++ "\", ") ++ "nullable=true, "
          else
            (if length ≠ -1 then
              "@get:Column(name=\"" ++ clnName ++ "\", " ++ "length=" ++ Itoa length ++ ", "
            else "@get:Column(name=\"" ++ clnName ++ "\", ") ++ "nullable=false, ")
          ", "
      = "@get:Column(name=\"" ++ clnName ++ "\", " ++
        (if length ≠ -1 then "length=" ++ Itoa length ++ ", " else "") ++
        (if nullable = true then "nullable=true" else "nullable=false") := by
    by_cases hn : nullable = true <;> by_cases hl : length ≠ -1 <;>
      simp only [hn, hl, if_true, if_false, not_false_eq_true, trimRight_nullable_true, ne_eq,
        trimRight_nullable_false, Bool.false_eq_true] <;>
      (apply String.ext; simp)
  rw [hT]
  have hpad : ∀ (a m : String), (∃ r₁, m.data = '@' :: r₁) → (∃ r₂, m.data = r₂ ++ [')']) →
      a.data = ' ' :: (m.data ++ [' ']) → TrimSpace a = m := by
    intro a m h₁ h₂ ha
    have := trimSpace_padded m.data h₁ h₂
    rw [← ha] at this
    exact this
  apply hpad
  · by_cases hk : clnKey = "PRI" <;> by_cases he : clnExtra = "auto_increment" <;>
      simp [hk, he]
  · by_cases hn : nullable = true
    · refine ⟨((if clnKey = "PRI" then "@get:Key  " else "") ++
        (if clnExtra = "auto_increment" then "@get:Generated  " else "") ++
        "@get:Column(name=\"" ++ clnName ++ "\", " ++
        (if length ≠ -1 then "length=" ++ Itoa length ++ ", " else "") ++ "nullable=true").data, ?_⟩
      simp [hn]
    · refine ⟨((if clnKey = "PRI" then "@get:Key  " else "") ++
        (if clnExtra = "auto_increment" then "@get:Generated  " else "") ++
        "@get:Column(name=\"" ++ clnName ++ "\", " ++
        (if length ≠ -1 then "length=" ++ Itoa length ++ ", " else "") ++ "nullable=false").data, ?_⟩
      simp [hn]
  · by_cases hk : clnKey = "PRI" <;> by_cases he : clnExtra = "auto_increment" <;>
      by_cases hn : nullable = true <;> simp [hk, he, hn]

theorem trimSpace_clean (m : String) (h₁ : ∃ r₁, m.data = '@' :: r₁)
    (h₂ : ∃ r₂, m.data = r₂ ++ [')']) : TrimSpace m = m := by
  obtain ⟨r₁, h₁⟩ := h₁
  obtain ⟨r₂, h₂⟩ := h₂
  apply String.ext
  have hat : isSpace '@' = false := by decide
  have hcl : isSpace ')' = false := by decide
  have hdrop : List.dropWhile isSpace m.data = m.data := by
    rw [h₁]
    simp [List.dropWhile_cons, hat]
  simp only [TrimSpace, hdrop]
  rw [h₂]
  exact List.rdropWhile_concat_neg _ _ _ (by simp [hcl])

theorem no_dangling_separator (x : String) (b : Bool) :
    HasSuffix (x ++ (if b = true then "nullable=true)" else "nullable=false)")) ", )"
      = false := by
  rw [← Bool.not_eq_true]
  intro h
  unfold HasSuffix at h
  rw [List.isSuffixOf_iff_suffix] at h
  obtain ⟨t, ht⟩ := h
  have hr := congrArg List.reverse ht
  cases b <;> simp at hr

theorem convertType_dataType_values (dbClnName dbType dbNullable dbDefault column : String)
    (dataType : String) (length : Int) (nullable : Bool)
    (h : convertType dbClnName dbType dbNullable dbDefault column
      = .ok (dataType, length, nullable)) :
    dataType ∈ ["Boolean", "Int", "Long", "java.math.BigDecimal", "Float", "Double", "String",
      "java.time.ZonedDateTime", "ByteArray"] := by
  have hp := convertType_path dbClnName dbType dbNullable dbDefault column
  rw [h] at hp
  cases hp <;> simp

theorem convertType_boolean_iff (dbClnName dbType dbNullable dbDefault column : String)
    (dataType : String) (length : Int) (nullable : Bool)
    (h : convertType dbClnName dbType dbNullable dbDefault column
      = .ok (dataType, length, nullable)) :
    dataType = "Boolean" ↔ HasPrefix dbClnName "is_" = true := by
  have hp := convertType_path dbClnName dbType dbNullable dbDefault column
  rw [h] at hp
  cases hp with
  | isNamed h0 => simp [h0]
  | _ =>
    rename_i hn _
    rw [hn]
    simp

theorem typeText_last :
    ∀ d ∈ ["Boolean", "Int", "Long", "java.math.BigDecimal", "Float", "Double", "String",
      "java.time.ZonedDateTime", "ByteArray"], ∀ n : Bool,
      (d ++ (if n = true then "?" else "")).data.getLast? ≠ none ∧
      (d ++ (if n = true then "?" else "")).data.getLast? ≠ some ',' ∧
      ((d ++ (if n = true then "?" else "")).data.getLast? = some '?' ↔ n = true) := by
  decide

theorem trimRight_comma_of_last (x : String) (h₁ : x.data.getLast? ≠ none)
    (h₂ : x.data.getLast? ≠ some ',') : TrimRight (x ++ ",") "," = x := by
  cases hl : x.data.getLast? with
  | none => exact absurd hl h₁
  | some c =>
    obtain ⟨r, hr⟩ := List.getLast?_eq_some_iff.mp hl
    have hc : c ≠ ',' := fun e => h₂ (by rw [hl, e])
    apply String.ext
    have := rdropWhile_snoc_tail (fun c => ("," : String).data.contains c) r [','] c
      (by simp [hc]) (by simp)
    simp only [TrimRight, String.data_append, hr, List.append_assoc]
    exact this

theorem replace_is_named (rest : String) : Replace ("is_" ++ rest) "is_" "" 1 = rest := by
  apply String.ext
  cases h : rest.data <;> simp [Replace, replaceGo, h]

theorem fieldBody_last (fieldName dataType : String) (nullable : Bool)
    (hd : dataType ∈ ["Boolean", "Int", "Long", "java.math.BigDecimal", "Float", "Double",
      "String", "java.time.ZonedDateTime", "ByteArray"]) :
    ("var " ++ fieldName ++ ": " ++ dataType
        ++ (if nullable = true then "?" else "")).data.getLast?
      = (dataType ++ (if nullable = true then "?" else "")).data.getLast? := by
  obtain ⟨h₁, -, -⟩ := typeText_last dataType hd nullable
  have hx : ("var " ++ fieldName ++ ": " ++ dataType ++ (if nullable = true then "?" else "")).data
      = ("var " ++ fieldName ++ ": ").data
        ++ (dataType ++ (if nullable = true then "?" else "")).data := by
    simp only [String.data_append, List.append_assoc]
  rw [hx, List.getLast?_append]
  cases hl : (dataType ++ (if nullable = true then "?" else "")).data.getLast? with
  | none => exact absurd hl h₁
  | some c => rfl

theorem field_text (generateInterface : Bool) (fieldName dataType : String) (nullable : Bool)
    (hd : dataType ∈ ["Boolean", "Int", "Long", "java.math.BigDecimal", "Float", "Double",
      "String", "java.time.ZonedDateTime", "ByteArray"]) :
    (if generateInterface = true then
        TrimRight ("var " ++ fieldName ++ ": " ++ dataType ++ (if nullable = true then "?" else "")
          ++ ",") ","
      else "var " ++ fieldName ++ ": " ++ dataType ++ (if nullable = true then "?" else "") ++ ",")
    = "var " ++ fieldName ++ ": " ++ dataType ++ (if nullable = true then "?" else "") ++
        (if generateInterface = true then "" else ",") := by
  cases generateInterface with
  | false => simp
  | true =>
    obtain ⟨h₁, h₂, -⟩ := typeText_last dataType hd nullable
    have hlast := fieldBody_last fieldName dataType nullable hd
    simp only [if_true]
    rw [trimRight_comma_of_last _ (by rw [hlast]; exact h₁) (by rw [hlast]; exact h₂)]
    apply String.ext
    simp

theorem trimRight_of_last (x : String) (h₂ : x.data.getLast? ≠ some ',') :
    TrimRight x "," = x := by
  apply String.ext
  simp only [TrimRight]
  rw [List.rdropWhile_eq_self_iff]
  intro hne
  intro hc
  apply h₂
  rw [List.getLast?_eq_getLast _ hne]
  simp at hc
  rw [hc]

theorem hasSuffix_double_comma (x : String) (h₂ : x.data.getLast? ≠ some ',') :
    HasSuffix (x ++ ",") ",," = false := by
  rw [← Bool.not_eq_true]
  intro h
  unfold HasSuffix at h
  rw [List.isSuffixOf_iff_suffix] at h
  obtain ⟨t, ht⟩ := h
  apply h₂
  have ht' : t ++ [',', ','] = x.data ++ [','] := by simpa using ht
  have h1 : (t ++ [',']) ++ [','] = x.data ++ [','] := by
    rw [← ht', List.append_assoc]
    rfl
  have h2 := List.append_inj_left' h1 rfl
  rw [← h2, List.getLast?_concat]

/-- What the loop body returns for a column on which `convertType` returns: the field
is a body ending with the type text, followed by the separator of the mode. -/
theorem rowProperty_field_body (inf : Inflect) (generateInterface : Bool) (tableName : String)
    (col : Column) (p : Property)
    (h : rowProperty inf generateInterface tableName col = .ok p) :
    ∃ (dataType : String) (length : Int) (nullable : Bool) (fieldName : String),
      convertType col.clnName col.clnType col.clnNull col.clnDefault
        (tableName ++ "." ++ col.clnName) = .ok (dataType, length, nullable) ∧
      dataType ∈ ["Boolean", "Int", "Long", "java.math.BigDecimal", "Float", "Double",
        "String", "java.time.ZonedDateTime", "ByteArray"] ∧
      p.Field = "var " ++ fieldName ++ ": " ++ dataType ++ (if nullable = true then "?" else "")
        ++ (if generateInterface = true then "" else ",") ∧
      Property.Annotation p =
        (if col.clnKey = "PRI" then "@get:Key  " else "") ++
        (if col.clnExtra = "auto_increment" then "@get:Generated  " else "") ++
        "@get:Column(name=\"" ++ col.clnName ++ "\", " ++
        (if length ≠ -1 then "length=" ++ Itoa length ++ ", " else "") ++
        (if nullable = true then "nullable=true)" else "nullable=false)") := by
  cases hc : convertType col.clnName col.clnType col.clnNull col.clnDefault
      (tableName ++ "." ++ col.clnName) with
  | error e =>
    unfold rowProperty at h
    rw [hc] at h
    cases h
  | ok r =>
    obtain ⟨dataType, length, nullable⟩ := r
    have hval := convertType_dataType_values _ _ _ _ _ _ _ _ hc
    rw [rowProperty_of_convert inf generateInterface tableName col dataType length nullable hc]
      at h
    simp only [Except.ok.injEq] at h
    subst h
    refine ⟨dataType, length, nullable,
      inf.LowerCamelCase
        (if (decide (dataType = "Boolean") && HasPrefix col.clnName "is_") = true then
          Replace col.clnName "is_" "" 1
        else col.clnName), rfl, hval, ?_, ?_⟩
    · dsimp only
      rw [field_text _ _ _ _ hval]
    · dsimp only
      rw [annotation_text]

theorem fieldBody_not_comma (fieldName dataType : String) (nullable : Bool)
    (hd : dataType ∈ ["Boolean", "Int", "Long", "java.math.BigDecimal", "Float", "Double",
      "String", "java.time.ZonedDateTime", "ByteArray"]) :
    ("var " ++ fieldName ++ ": " ++ dataType
        ++ (if nullable = true then "?" else "")).data.getLast? ≠ some ',' := by
  rw [fieldBody_last fieldName dataType nullable hd]
  exact (typeText_last dataType hd nullable).2.1

theorem hasSuffix_char_iff (x : String) (c : Char) :
    HasSuffix x ⟨[c]⟩ = true ↔ x.data.getLast? = some c := by
  unfold HasSuffix
  rw [List.isSuffixOf_iff_suffix, List.getLast?_eq_some_iff]
  constructor
  · rintro ⟨t, ht⟩
    exact ⟨t, ht.symm⟩
  · rintro ⟨t, ht⟩
    exact ⟨t, ht.symm⟩

theorem not_hasSuffix_nullable_true (x : String) :
    HasSuffix (x ++ "nullable=false)") "nullable=true)" = false := by
  rw [← Bool.not_eq_true]
  intro h
  unfold HasSuffix at h
  rw [List.isSuffixOf_iff_suffix] at h
  obtain ⟨t, ht⟩ := h
  have hr := congrArg List.reverse ht
  simp at hr

theorem rowProperty_nullability (inf : Inflect) (generateInterface : Bool) (tableName : String)
    (col : Column) (p : Property)
    (h : rowProperty inf generateInterface tableName col = .ok p) :
    ∃ (dataType : String) (length : Int) (nullable : Bool) (fieldName : String),
      convertType col.clnName col.clnType col.clnNull col.clnDefault
        (tableName ++ "." ++ col.clnName) = .ok (dataType, length, nullable) ∧
      TrimRight p.Field ","
        = "var " ++ fieldName ++ ": " ++ dataType ++ (if nullable = true then "?" else "") ∧
      HasSuffix (Property.Annotation p)
        (if nullable = true then "nullable=true)" else "nullable=false)") = true ∧
      (HasSuffix (TrimRight p.Field ",") "?" = true ↔
        HasSuffix (Property.Annotation p) "nullable=true)" = true) := by
  obtain ⟨dataType, length, nullable, fieldName, hc, hval, hfield, hann⟩ :=
    rowProperty_field_body inf generateInterface tableName col p h
  obtain ⟨hsome, hcomma, hmark⟩ := typeText_last dataType hval nullable
  have hlast := fieldBody_last fieldName dataType nullable hval
  have htrim : TrimRight p.Field ","
      = "var " ++ fieldName ++ ": " ++ dataType ++ (if nullable = true then "?" else "") := by
    rw [hfield]
    cases generateInterface with
    | true =>
      simp only [if_true, String.append_empty]
      exact trimRight_of_last _ (by rw [hlast]; exact hcomma)
    | false =>
      simp only [Bool.false_eq_true, if_false]
      exact trimRight_comma_of_last _ (by rw [hlast]; exact hsome) (by rw [hlast]; exact hcomma)
  refine ⟨dataType, length, nullable, fieldName, hc, htrim, ?_, ?_⟩
  · rw [hann]
    exact hasSuffix_append_self _ _
  · rw [htrim, hasSuffix_char_iff _ '?', hlast, hmark, hann]
    cases nullable with
    | true =>
      simp only [if_true, true_iff]
      exact hasSuffix_append_self _ _
    | false =>
      simp only [Bool.false_eq_true, if_false, false_iff, Bool.not_eq_true]
      exact not_hasSuffix_nullable_true _

theorem trimRight_idempotent (x cutset : String) :
    TrimRight (TrimRight x cutset) cutset = TrimRight x cutset := by
  apply String.ext
  simp only [TrimRight]
  exact List.rdropWhile_idempotent _ _

theorem supportedType_head (dbType : String) (h : supportedType dbType = true) :
    ∃ c rest, dbType.data = c :: rest ∧
      c ∈ ['i', 't', 's', 'b', 'd', 'f', 'v', 'c', 'e', 'm', 'l'] := by
  simp only [supportedType, Bool.or_eq_true, decide_eq_true_eq] at h
  rcases h with ((((((((((((((((((h | h) | h) | h) | h) | h) | h) | h) | h) | h) | h) | h) | h)
    | h) | h) | h) | h) | h) | h)
  any_goals
    (obtain ⟨t, ht⟩ := (hasPrefix_iff _ _).mp h
     simp only [List.cons_append] at ht
     exact ⟨_, _, ht, by simp⟩)
  all_goals
    (subst h
     exact ⟨_, _, rfl, by decide⟩)

theorem unsupported_of_head (c : Char) (rest : List Char)
    (h : c ∉ ['i', 't', 's', 'b', 'd', 'f', 'v', 'c', 'e', 'm', 'l']) :
    supportedType ⟨c :: rest⟩ = false := by
  simp only [List.mem_cons, List.mem_singleton, List.not_mem_nil, or_false, not_or] at h
  obtain ⟨h1, h2, h3, h4, h5, h6, h7, h8, h9, h10, h11⟩ := h
  simp [supportedType, HasPrefix, List.isPrefixOf, String.ext_iff, h1, h2, h3, h4, h5, h6, h7,
    h8, h9, h10, h11, Ne.symm h1, Ne.symm h2, Ne.symm h3, Ne.symm h4, Ne.symm h5, Ne.symm h6,
    Ne.symm h7, Ne.symm h8, Ne.symm h9, Ne.symm h10, Ne.symm h11]

theorem upperAscii_head :
    ∀ c ∈ ['i', 't', 's', 'b', 'd', 'f', 'v', 'c', 'e', 'm', 'l'],
      upperAscii c ∉ ['i', 't', 's', 'b', 'd', 'f', 'v', 'c', 'e', 'm', 'l'] := by
  decide

theorem firstMatch_of_mem {α : Type} (l : List (Bool × α))
    (hex : l.Pairwise (fun a b => ¬ (a.1 = true ∧ b.1 = true))) (r : α)
    (hmem : (true, r) ∈ l) : firstMatch l = some r := by
  induction l with
  | nil => cases hmem
  | cons a rest ih =>
    obtain ⟨c, r0⟩ := a
    rw [List.pairwise_cons] at hex
    rcases List.mem_cons.mp hmem with heq | hrest
    · cases heq
      simp [firstMatch]
    · have hc : c = false := by
        cases c with
        | false => rfl
        | true => exact absurd ⟨rfl, rfl⟩ (hex.1 _ hrest)
      subst hc
      simp only [firstMatch, Bool.false_eq_true, if_false]
      exact ih hex.2 hrest

theorem firstMatch_of_all_false {α : Type} (l : List (Bool × α))
    (h : ∀ a ∈ l, a.1 = false) : firstMatch l = none := by
  induction l with
  | nil => rfl
  | cons a rest ih =>
    obtain ⟨c, r0⟩ := a
    have hc : c = false := h (c, r0) (List.mem_cons_self _ _)
    subst hc
    simp only [firstMatch, Bool.false_eq_true, if_false]
    exact ih (fun a ha => h a (List.mem_cons_of_mem _ ha))

theorem firstMatch_cases {α : Type} (l : List (Bool × α)) :
    (firstMatch l = none ∧ ∀ a ∈ l, a.1 = false) ∨ ∃ r, firstMatch l = some r ∧ (true, r) ∈ l := by
  induction l with
  | nil => exact Or.inl ⟨rfl, fun a ha => by cases ha⟩
  | cons a rest ih =>
    obtain ⟨c, r0⟩ := a
    cases c with
    | true => exact Or.inr ⟨r0, by simp [firstMatch], List.mem_cons_self _ _⟩
    | false =>
      rcases ih with ⟨hn, hall⟩ | ⟨r, hr, hmem⟩
      · refine Or.inl ⟨by simp [firstMatch, hn], ?_⟩
        intro a ha
        rcases List.mem_cons.mp ha with rfl | ha'
        · rfl
        · exact hall a ha'
      · exact Or.inr ⟨r, by simp [firstMatch, hr], List.mem_cons_of_mem _ hmem⟩

theorem firstMatch_perm {α : Type} (l l' : List (Bool × α))
    (hex : l.Pairwise (fun a b => ¬ (a.1 = true ∧ b.1 = true))) (hperm : l'.Perm l) :
    firstMatch l' = firstMatch l := by
  have hex' : l'.Pairwise (fun a b => ¬ (a.1 = true ∧ b.1 = true)) :=
    (hperm.pairwise_iff (fun h hba => h ⟨hba.2, hba.1⟩)).mpr hex
  rcases firstMatch_cases l with ⟨hn, hall⟩ | ⟨r, hr, hmem⟩
  · rw [hn]
    exact firstMatch_of_all_false l' (fun a ha => hall a (hperm.mem_iff.mp ha))
  · rw [hr]
    exact firstMatch_of_mem l' hex' r (hperm.mem_iff.mpr hmem)

theorem switchCases_exclusive (dbType dbNullable dbDefault : String) :
    (switchCases dbType dbNullable dbDefault).Pairwise
      (fun a b => ¬ (a.1 = true ∧ b.1 = true)) := by
  by_cases hs : supportedType dbType = true
  · rcases dbType with ⟨l⟩
    simp only [supportedType, Bool.or_eq_true, decide_eq_true_eq] at hs
    rcases hs with ((((((((((((((((((h | h) | h) | h) | h) | h) | h) | h) | h) | h) | h) | h)
      | h) | h) | h) | h) | h) | h) | h)
    any_goals
      (obtain ⟨t, ht⟩ := (hasPrefix_iff _ _).mp h
       simp only [List.cons_append] at ht
       subst ht
       simp [switchCases, HasPrefix, List.isPrefixOf, String.ext_iff])
    all_goals
      (have hd := congrArg String.data h
       simp at hd
       subst hd
       simp [switchCases, HasPrefix, List.isPrefixOf, String.ext_iff])
  · have hs' : supportedType dbType = false := by simpa using hs
    simp only [supportedType, Bool.or_eq_false_iff, decide_eq_false_iff_not] at hs'
    simp [switchCases, hs']

theorem firstMatch_switchCases (dbClnName dbType dbNullable dbDefault column : String)
    (hn : HasPrefix dbClnName "is_" = false) :
    (match firstMatch (switchCases dbType dbNullable dbDefault) with
      | some r => Except.ok r
      | none => Except.error ("Type not supported: " ++ dbType ++ " - " ++ column))
    = convertType dbClnName dbType dbNullable dbDefault column := by
  have hp := convertType_path dbClnName dbType dbNullable dbDefault column
  generalize convertType dbClnName dbType dbNullable dbDefault column = res at hp ⊢
  have hex := switchCases_exclusive dbType dbNullable dbDefault
  cases hp with
  | isNamed h0 => rw [hn] at h0; cases h0
  | unsupported _ hu =>
    simp only [supportedType, Bool.or_eq_false_iff, decide_eq_false_iff_not] at hu
    rw [firstMatch_of_all_false _ (by simp [switchCases, hu])]
  | int _ hc =>
    rw [firstMatch_of_mem _ hex ("Int", -1, decide (dbNullable = "YES"))
      (by rcases hc with h | h | h <;> simp [switchCases, h])]
  | bigint _ hc =>
    rw [firstMatch_of_mem _ hex ("Long", -1, decide (dbNullable = "YES"))
      (by simp [switchCases, hc])]
  | decimal _ hc =>
    rw [firstMatch_of_mem _ hex ("java.math.BigDecimal", -1, decide (dbNullable = "YES"))
      (by simp [switchCases, hc])]
  | float _ hc =>
    rw [firstMatch_of_mem _ hex ("Float", -1, decide (dbNullable = "YES"))
      (by simp [switchCases, hc])]
  | double _ hc =>
    rw [firstMatch_of_mem _ hex ("Double", -1, decide (dbNullable = "YES"))
      (by simp [switchCases, hc])]
  | varchar _ hc =>
    rw [firstMatch_of_mem _ hex ("String", getDbTypeLength dbType, decide (dbNullable = "YES"))
      (by rcases hc with h | h <;> simp [switchCases, h])]
  | enum _ hc =>
    rw [firstMatch_of_mem _ hex ("String", -1, decide (dbNullable = "YES"))
      (by simp [switchCases, hc])]
  | timestamp _ hc =>
    rw [firstMatch_of_mem _ hex ("java.time.ZonedDateTime", -1,
        if dbDefault = "0000-00-00 00:00:00" then true else decide (dbNullable = "YES"))
      (by simp [switchCases, hc])]
  | date _ hc =>
    rw [firstMatch_of_mem _ hex ("java.time.ZonedDateTime", -1, decide (dbNullable = "YES"))
      (by rcases hc with h | h <;> simp [switchCases, h])]
  | tinytext _ hc =>
    rw [firstMatch_of_mem _ hex ("String", 255, decide (dbNullable = "YES"))
      (by simp [switchCases, hc])]
  | text _ hc =>
    rw [firstMatch_of_mem _ hex ("String", 65535, decide (dbNullable = "YES"))
      (by simp [switchCases, hc])]
  | mediumtext _ hc =>
    rw [firstMatch_of_mem _ hex ("String", 16777215, decide (dbNullable = "YES"))
      (by simp [switchCases, hc])]
  | longtext _ hc =>
    rw [firstMatch_of_mem _ hex ("String", -1, decide (dbNullable = "YES"))
      (by simp [switchCases, hc])]
  | longblob _ hc =>
    rw [firstMatch_of_mem _ hex ("ByteArray", -1, decide (dbNullable = "YES"))
      (by rcases hc with h | h <;> simp [switchCases, h])]

theorem convertType_is_named (dbClnName dbType dbNullable dbDefault column : String)
    (h : HasPrefix dbClnName "is_" = true) :
    convertType dbClnName dbType dbNullable dbDefault column
      = .ok ("Boolean", -1, decide (dbNullable = "YES")) := by
  simp [convertType, h]

theorem convertType_char_family (dbClnName dbType dbNullable dbDefault column : String)
    (hn : HasPrefix dbClnName "is_" = false)
    (hv : HasPrefix dbType "varchar" = true ∨ HasPrefix dbType "char" = true) :
    convertType dbClnName dbType dbNullable dbDefault column
      = .ok ("String", getDbTypeLength dbType, decide (dbNullable = "YES")) := by
  have h' := not_is_named dbClnName hn
  rcases dbType with ⟨l⟩
  rcases hv with hp | hp <;>
    (obtain ⟨t, ht⟩ := (hasPrefix_iff _ _).mp hp
     simp at ht
     subst ht
     simp [convertType, h', HasPrefix, List.isPrefixOf])

theorem convertType_fixed_text (dbClnName dbNullable dbDefault column : String)
    (hn : HasPrefix dbClnName "is_" = false) :
    convertType dbClnName "tinytext" dbNullable dbDefault column
      = .ok ("String", 255, decide (dbNullable = "YES")) ∧
    convertType dbClnName "text" dbNullable dbDefault column
      = .ok ("String", 65535, decide (dbNullable = "YES")) ∧
    convertType dbClnName "mediumtext" dbNullable dbDefault column
      = .ok ("String", 16777215, decide (dbNullable = "YES")) := by
  have h' := not_is_named dbClnName hn
  refine ⟨?_, ?_, ?_⟩ <;>
    simp [convertType, h', HasPrefix, List.isPrefixOf, String.ext_iff]

theorem getDbTypeLength_value (dbType : String) :
    (∀ pre ds post : List Char,
      dbType.data = pre ++ '(' :: (ds ++ ')' :: post) → ds ≠ [] → ds.all isDigit = true →
      (∀ pre' ds' post' : List Char, dbType.data = pre' ++ '(' :: (ds' ++ ')' :: post') →
        ds' ≠ [] → ds'.all isDigit = true → pre.length ≤ pre'.length) →
      (((digitsValue ds : Int) ≤ maxInt → getDbTypeLength dbType = (digitsValue ds : Int)) ∧
       (¬ (digitsValue ds : Int) ≤ maxInt → getDbTypeLength dbType = -1))) ∧
    ((∀ pre ds post : List Char, ds ≠ [] → ds.all isDigit = true →
        dbType.data ≠ pre ++ '(' :: (ds ++ ')' :: post)) →
      getDbTypeLength dbType = -1) := by
  constructor
  · intro pre ds post hl hne hd hmin
    have hf := findParenDigits_first dbType.data pre ds post hl hne hd hmin
    constructor
    · intro hfit
      simp only [getDbTypeLength, FindStringSubmatch, hf, Atoi_digits ds hne hd, if_pos hfit]
    · intro hfit
      simp only [getDbTypeLength, FindStringSubmatch, hf, Atoi_digits ds hne hd, if_neg hfit]
  · intro hno
    cases hf : findParenDigits dbType.data with
    | none => simp only [getDbTypeLength, FindStringSubmatch, hf]
    | some ds =>
      obtain ⟨pre, post, hl, hne, hd⟩ := findParenDigits_sound _ _ hf
      exact absurd hl (hno pre ds post hne hd)

/-! ## The type mapper -/

/-- C1: a column whose name starts with `is_` is mapped to `Boolean` whatever its
declared type, nullability and default are; the call returns normally, with length
`-1` and the declared nullability. -/
theorem convertType_is_named_boolean (dbClnName dbType dbNullable dbDefault column : String)
    (h : HasPrefix dbClnName "is_" = true) :
    convertType dbClnName dbType dbNullable dbDefault column
      = .ok ("Boolean", -1, decide (dbNullable = "YES")) := by
  simp [convertType, h]

/-- Witness of C1 at a column `is_active` of the unsupported type `json`. -/
theorem convertType_is_named_boolean_witness :
    HasPrefix "is_active" "is_" = true ∧
    convertType "is_active" "json" "NO" "x" "users.is_active"
      = .ok ("Boolean", -1, decide (("NO" : String) = "YES")) :=
  ⟨by decide, convertType_is_named_boolean "is_active" "json" "NO" "x" "users.is_active" (by decide)⟩

/-- C2 as stated fails: a column named `is_deleted` of type `timestamp` with the
all-zero default and declared non-nullable is returned as non-nullable `Boolean`. -/
theorem convertType_zero_timestamp_is_named_not_nullable :
    convertType "is_deleted" "timestamp" "NO" "0000-00-00 00:00:00" "t.is_deleted"
        = .ok ("Boolean", -1, false) ∧
    nullableOf (convertType "is_deleted" "timestamp" "NO" "0000-00-00 00:00:00" "t.is_deleted")
        ≠ some true := by
  decide

/-- C2 amended: for every column whose name does not start with `is_`, whose declared
type is exactly `timestamp` and whose default is `0000-00-00 00:00:00`, the call
returns normally with `nullable = true`, whatever the declared nullability. -/
theorem convertType_zero_timestamp_nullable (dbClnName dbNullable column : String)
    (h : HasPrefix dbClnName "is_" = false) :
    convertType dbClnName "timestamp" dbNullable "0000-00-00 00:00:00" column
      = .ok ("java.time.ZonedDateTime", -1, true) := by
  have e1 : HasPrefix "timestamp" "int" = false := by decide
  have e2 : HasPrefix "timestamp" "tinyint" = false := by decide
  have e3 : HasPrefix "timestamp" "smallint" = false := by decide
  have e4 : HasPrefix "timestamp" "bigint" = false := by decide
  have e5 : HasPrefix "timestamp" "decimal" = false := by decide
  have e6 : HasPrefix "timestamp" "float" = false := by decide
  have e7 : HasPrefix "timestamp" "double" = false := by decide
  have e8 : HasPrefix "timestamp" "varchar" = false := by decide
  have e9 : HasPrefix "timestamp" "char" = false := by decide
  have e10 : HasPrefix "timestamp" "enum" = false := by decide
  simp [convertType, h, e1, e2, e3, e4, e5, e6, e7, e8, e9, e10]

/-- Witness of amended C2 at a column `created_at` declared `NO`. -/
theorem convertType_zero_timestamp_nullable_witness :
    HasPrefix "created_at" "is_" = false ∧
    convertType "created_at" "timestamp" "NO" "0000-00-00 00:00:00" "t.created_at"
      = .ok ("java.time.ZonedDateTime", -1, true) :=
  ⟨by decide, convertType_zero_timestamp_nullable "created_at" "NO" "t.created_at" (by decide)⟩

/-- C3: for a column whose name does not start with `is_`, the returned data type is
the one the type-family table fixes, for every nullability and default. -/
theorem convertType_type_table (dbClnName dbType dbNullable dbDefault column : String)
    (h : HasPrefix dbClnName "is_" = false) :
    (HasPrefix dbType "int" = true ∨ HasPrefix dbType "tinyint" = true ∨
        HasPrefix dbType "smallint" = true →
      dataTypeOf (convertType dbClnName dbType dbNullable dbDefault column) = some "Int") ∧
    (HasPrefix dbType "bigint" = true →
      dataTypeOf (convertType dbClnName dbType dbNullable dbDefault column) = some "Long") ∧
    (HasPrefix dbType "decimal" = true →
      dataTypeOf (convertType dbClnName dbType dbNullable dbDefault column)
        = some "java.math.BigDecimal") ∧
    (HasPrefix dbType "float" = true →
      dataTypeOf (convertType dbClnName dbType dbNullable dbDefault column) = some "Float") ∧
    (HasPrefix dbType "double" = true →
      dataTypeOf (convertType dbClnName dbType dbNullable dbDefault column) = some "Double") ∧
    (HasPrefix dbType "varchar" = true ∨ HasPrefix dbType "char" = true ∨
        HasPrefix dbType "enum" = true ∨ dbType = "tinytext" ∨ dbType = "text" ∨
        dbType = "mediumtext" ∨ dbType = "longtext" →
      dataTypeOf (convertType dbClnName dbType dbNullable dbDefault column) = some "String") ∧
    (dbType = "timestamp" ∨ dbType = "date" ∨ dbType = "datetime" →
      dataTypeOf (convertType dbClnName dbType dbNullable dbDefault column)
        = some "java.time.ZonedDateTime") ∧
    (dbType = "longblob" ∨ HasPrefix dbType "binary" = true →
      dataTypeOf (convertType dbClnName dbType dbNullable dbDefault column)
        = some "ByteArray") := by
  have h' := not_is_named dbClnName h
  rcases dbType with ⟨l⟩
  refine ⟨?_, ?_, ?_, ?_, ?_, ?_, ?_, ?_⟩
  · rintro (hp | hp | hp) <;>
      (obtain ⟨t, ht⟩ := (hasPrefix_iff _ _).mp hp
       simp at ht
       subst ht
       simp [convertType, h', HasPrefix, List.isPrefixOf, dataTypeOf])
  · intro hp
    obtain ⟨t, ht⟩ := (hasPrefix_iff _ _).mp hp
    simp at ht
    subst ht
    simp [convertType, h', HasPrefix, List.isPrefixOf, dataTypeOf]
  · intro hp
    obtain ⟨t, ht⟩ := (hasPrefix_iff _ _).mp hp
    simp at ht
    subst ht
    simp [convertType, h', HasPrefix, List.isPrefixOf, dataTypeOf]
  · intro hp
    obtain ⟨t, ht⟩ := (hasPrefix_iff _ _).mp hp
    simp at ht
    subst ht
    simp [convertType, h', HasPrefix, List.isPrefixOf, dataTypeOf]
  · intro hp
    obtain ⟨t, ht⟩ := (hasPrefix_iff _ _).mp hp
    simp at ht
    subst ht
    simp [convertType, h', HasPrefix, List.isPrefixOf, dataTypeOf]
  · rintro (hp | hp | hp | hp | hp | hp | hp)
    · obtain ⟨t, ht⟩ := (hasPrefix_iff _ _).mp hp
      simp at ht
      subst ht
      simp [convertType, h', HasPrefix, List.isPrefixOf, dataTypeOf]
    · obtain ⟨t, ht⟩ := (hasPrefix_iff _ _).mp hp
      simp at ht
      subst ht
      simp [convertType, h', HasPrefix, List.isPrefixOf, dataTypeOf]
    · obtain ⟨t, ht⟩ := (hasPrefix_iff _ _).mp hp
      simp at ht
      subst ht
      simp [convertType, h', HasPrefix, List.isPrefixOf, dataTypeOf, String.ext_iff]
    all_goals
      (have hd := congrArg String.data hp
       simp at hd
       subst hd
       simp [convertType, h', HasPrefix, List.isPrefixOf, dataTypeOf, String.ext_iff])
  · rintro (hp | hp | hp) <;>
      (have hd := congrArg String.data hp
       simp at hd
       subst hd
       simp [convertType, h', HasPrefix, List.isPrefixOf, dataTypeOf, String.ext_iff])
  · rintro (hp | hp)
    · have hd := congrArg String.data hp
      simp at hd
      subst hd
      simp [convertType, h', HasPrefix, List.isPrefixOf, dataTypeOf, String.ext_iff]
    · obtain ⟨t, ht⟩ := (hasPrefix_iff _ _).mp hp
      simp at ht
      subst ht
      simp [convertType, h', HasPrefix, List.isPrefixOf, dataTypeOf, String.ext_iff]

/-- Witness of C3: one column per row of the type-family table. -/
theorem convertType_type_table_witness :
    HasPrefix "c" "is_" = false ∧
    dataTypeOf (convertType "c" "smallint(6)" "NO" "" "t.c") = some "Int" ∧
    dataTypeOf (convertType "c" "bigint(20)" "NO" "" "t.c") = some "Long" ∧
    dataTypeOf (convertType "c" "decimal(10,2)" "NO" "" "t.c") = some "java.math.BigDecimal" ∧
    dataTypeOf (convertType "c" "float" "NO" "" "t.c") = some "Float" ∧
    dataTypeOf (convertType "c" "double" "NO" "" "t.c") = some "Double" ∧
    dataTypeOf (convertType "c" "enum('a','b')" "NO" "" "t.c") = some "String" ∧
    dataTypeOf (convertType "c" "datetime" "NO" "" "t.c") = some "java.time.ZonedDateTime" ∧
    dataTypeOf (convertType "c" "binary(16)" "NO" "" "t.c") = some "ByteArray" :=
  ⟨by decide,
   (convertType_type_table "c" "smallint(6)" "NO" "" "t.c" (by decide)).1 (by decide),
   (convertType_type_table "c" "bigint(20)" "NO" "" "t.c" (by decide)).2.1 (by decide),
   (convertType_type_table "c" "decimal(10,2)" "NO" "" "t.c" (by decide)).2.2.1 (by decide),
   (convertType_type_table "c" "float" "NO" "" "t.c" (by decide)).2.2.2.1 (by decide),
   (convertType_type_table "c" "double" "NO" "" "t.c" (by decide)).2.2.2.2.1 (by decide),
   (convertType_type_table "c" "enum('a','b')" "NO" "" "t.c" (by decide)).2.2.2.2.2.1 (by decide),
   (convertType_type_table "c" "datetime" "NO" "" "t.c" (by decide)).2.2.2.2.2.2.1 (by decide),
   (convertType_type_table "c" "binary(16)" "NO" "" "t.c" (by decide)).2.2.2.2.2.2.2 (by decide)⟩

/-- C4 as stated fails: the type `text`, which carries no size suffix, yields the
length 65535 and not `-1`. -/
theorem convertType_text_length_not_unset :
    convertType "body" "text" "NO" "" "posts.body" = .ok ("String", 65535, false) ∧
    lengthOf (convertType "body" "text" "NO" "" "posts.body") ≠ some (-1) := by
  decide

/-- C4 amended: whenever `convertType` returns normally, the returned length is fixed as
follows. It is `-1` when the column name starts with `is_`. Otherwise it is 255, 65535
or 16777215 when the declared type is exactly `tinytext`, `text` or `mediumtext`; when
the declared type starts with `varchar` or `char` it is the value of the first
parenthesised group of decimal digits of the type string if that value fits Go's `int`,
and `-1` if the value does not fit or the type string has no such group; and it is `-1`
for every other declared type. The three text types do return these lengths, and
`int`, `longtext` and `timestamp` return normally with length `-1`. -/
theorem convertType_length_cases (dbClnName dbType dbNullable dbDefault column : String) :
    (∀ (dataType : String) (length : Int) (nullable : Bool),
      convertType dbClnName dbType dbNullable dbDefault column = .ok (dataType, length, nullable) →
      (HasPrefix dbClnName "is_" = true → length = -1) ∧
      (HasPrefix dbClnName "is_" = false →
        (dbType = "tinytext" → length = 255) ∧
        (dbType = "text" → length = 65535) ∧
        (dbType = "mediumtext" → length = 16777215) ∧
        (HasPrefix dbType "varchar" = true ∨ HasPrefix dbType "char" = true →
          (∀ pre ds post : List Char,
            dbType.data = pre ++ '(' :: (ds ++ ')' :: post) → ds ≠ [] →
            ds.all isDigit = true →
            (∀ pre' ds' post' : List Char,
              dbType.data = pre' ++ '(' :: (ds' ++ ')' :: post') →
              ds' ≠ [] → ds'.all isDigit = true → pre.length ≤ pre'.length) →
            (((digitsValue ds : Int) ≤ maxInt → length = (digitsValue ds : Int)) ∧
             (¬ (digitsValue ds : Int) ≤ maxInt → length = -1))) ∧
          ((∀ pre ds post : List Char, ds ≠ [] → ds.all isDigit = true →
              dbType.data ≠ pre ++ '(' :: (ds ++ ')' :: post)) →
            length = -1)) ∧
        (HasPrefix dbType "varchar" = false → HasPrefix dbType "char" = false →
          dbType ≠ "tinytext" → dbType ≠ "text" → dbType ≠ "mediumtext" → length = -1))) ∧
    (HasPrefix dbClnName "is_" = false →
      (dbType = "tinytext" →
        lengthOf (convertType dbClnName dbType dbNullable dbDefault column) = some 255) ∧
      (dbType = "text" →
        lengthOf (convertType dbClnName dbType dbNullable dbDefault column) = some 65535) ∧
      (dbType = "mediumtext" →
        lengthOf (convertType dbClnName dbType dbNullable dbDefault column) = some 16777215)) ∧
    (dbType = "int" ∨ dbType = "longtext" ∨ dbType = "timestamp" →
      lengthOf (convertType dbClnName dbType dbNullable dbDefault column) = some (-1)) := by
  refine ⟨?_, ?_, ?_⟩
  · intro dataType length nullable h
    constructor
    · intro h0
      rw [convertType_is_named _ _ _ _ _ h0] at h
      simp only [Except.ok.injEq, Prod.mk.injEq] at h
      exact h.2.1.symm
    · intro hn
      refine ⟨?_, ?_, ?_, ?_, ?_⟩
      · intro hty
        subst hty
        rw [(convertType_fixed_text dbClnName dbNullable dbDefault column hn).1] at h
        simp only [Except.ok.injEq, Prod.mk.injEq] at h
        exact h.2.1.symm
      · intro hty
        subst hty
        rw [(convertType_fixed_text dbClnName dbNullable dbDefault column hn).2.1] at h
        simp only [Except.ok.injEq, Prod.mk.injEq] at h
        exact h.2.1.symm
      · intro hty
        subst hty
        rw [(convertType_fixed_text dbClnName dbNullable dbDefault column hn).2.2] at h
        simp only [Except.ok.injEq, Prod.mk.injEq] at h
        exact h.2.1.symm
      · intro hv
        rw [convertType_char_family _ _ _ _ _ hn hv] at h
        simp only [Except.ok.injEq, Prod.mk.injEq] at h
        rw [← h.2.1]
        exact getDbTypeLength_value dbType
      · intro hv1 hv2 ht1 ht2 ht3
        have hp := convertType_path dbClnName dbType dbNullable dbDefault column
        rw [h] at hp
        cases hp with
        | varchar _ hc =>
          rcases hc with hc | hc
          · rw [hv1] at hc; cases hc
          · rw [hv2] at hc; cases hc
        | tinytext _ hc => exact absurd hc ht1
        | text _ hc => exact absurd hc ht2
        | mediumtext _ hc => exact absurd hc ht3
        | _ => rfl
  · intro hn
    refine ⟨?_, ?_, ?_⟩
    · intro hty
      subst hty
      rw [(convertType_fixed_text dbClnName dbNullable dbDefault column hn).1]
      rfl
    · intro hty
      subst hty
      rw [(convertType_fixed_text dbClnName dbNullable dbDefault column hn).2.1]
      rfl
    · intro hty
      subst hty
      rw [(convertType_fixed_text dbClnName dbNullable dbDefault column hn).2.2]
      rfl
  · intro hty
    have hp := convertType_path dbClnName dbType dbNullable dbDefault column
    generalize convertType dbClnName dbType dbNullable dbDefault column = r at hp ⊢
    rcases hty with rfl | rfl | rfl <;>
      (cases hp <;> first
        | rfl
        | (exfalso; rename_i hc; revert hc; decide))

/-- Witness of amended C4: the three text types, `int`, an `is_` column, and
`varchar(255)` with its first parenthesised group `255`. -/
theorem convertType_length_cases_witness :
    HasPrefix "body" "is_" = false ∧
    lengthOf (convertType "body" "tinytext" "NO" "" "posts.body") = some 255 ∧
    lengthOf (convertType "body" "text" "NO" "" "posts.body") = some 65535 ∧
    lengthOf (convertType "body" "mediumtext" "NO" "" "posts.body") = some 16777215 ∧
    lengthOf (convertType "id" "int" "NO" "" "users.id") = some (-1) ∧
    convertType "email" "varchar(255)" "NO" "" "users.email" = .ok ("String", 255, false) ∧
    ((255 : Int) = (digitsValue ['2', '5', '5'] : Int)) ∧
    convertType "is_code" "char(3)" "NO" "" "t.is_code" = .ok ("Boolean", -1, false) ∧
    ((-1 : Int) = -1) :=
  ⟨by decide,
   ((convertType_length_cases "body" "tinytext" "NO" "" "posts.body").2.1 (by decide)).1 rfl,
   ((convertType_length_cases "body" "text" "NO" "" "posts.body").2.1 (by decide)).2.1 rfl,
   ((convertType_length_cases "body" "mediumtext" "NO" "" "posts.body").2.1 (by decide)).2.2 rfl,
   (convertType_length_cases "id" "int" "NO" "" "users.id").2.2 (Or.inl rfl),
   by decide,
   ((((((convertType_length_cases "email" "varchar(255)" "NO" "" "users.email").1
      "String" 255 false (by decide)).2 (by decide)).2.2.2.1 (Or.inl (by decide))).1
      ['v', 'a', 'r', 'c', 'h', 'a', 'r'] ['2', '5', '5'] [] (by decide) (by decide) (by decide)
      (fun pre' ds' post' h _ _ =>
        length_le_of_no_paren ['v', 'a', 'r', 'c', 'h', 'a', 'r'] pre' _ _ (by decide) h)).1
      (by decide)),
   by decide,
   ((convertType_length_cases "is_code" "char(3)" "NO" "" "t.is_code").1
      "Boolean" (-1) false (by decide)).1 (by decide)⟩

/-- C5 as stated fails: a column named `is_code` declared `varchar(255)` is returned
with length `-1`, not 255. -/
theorem convertType_sized_is_named_length_unset :
    convertType "is_code" "varchar(255)" "NO" "" "t.is_code" = .ok ("Boolean", -1, false) ∧
    lengthOf (convertType "is_code" "varchar(255)" "NO" "" "t.is_code") ≠ some 255 := by
  decide

/-- C5 amended: for a column whose name does not start with `is_` and whose declared
type is `varchar(n)` or `char(n)`, with `n` a decimal numeral whose value fits Go's
`int`, `convertType` returns the data type `String` and the length `n`. -/
theorem convertType_sized_char_length (dbClnName dbNullable dbDefault column numeral : String)
    (n : Nat) (hname : HasPrefix dbClnName "is_" = false) (hne : numeral.data ≠ [])
    (hd : numeral.data.all isDigit = true) (hval : digitsValue numeral.data = n)
    (hfit : (n : Int) ≤ maxInt) :
    convertType dbClnName ("varchar(" ++ numeral ++ ")") dbNullable dbDefault column
      = .ok ("String", (n : Int), decide (dbNullable = "YES")) ∧
    convertType dbClnName ("char(" ++ numeral ++ ")") dbNullable dbDefault column
      = .ok ("String", (n : Int), decide (dbNullable = "YES")) := by
  have h' := not_is_named dbClnName hname
  subst hval
  have e1 : ("varchar(" ++ numeral ++ ")" : String)
      = ⟨['v', 'a', 'r', 'c', 'h', 'a', 'r'] ++ '(' :: (numeral.data ++ ')' :: [])⟩ := by
    apply String.ext
    simp
  have e2 : ("char(" ++ numeral ++ ")" : String)
      = ⟨['c', 'h', 'a', 'r'] ++ '(' :: (numeral.data ++ ')' :: [])⟩ := by
    apply String.ext
    simp
  constructor
  · rw [e1]
    have hl := getDbTypeLength_sized ['v', 'a', 'r', 'c', 'h', 'a', 'r'] numeral.data []
      (by decide) hne hd hfit
    simp only [convertType]
    rw [hl]
    simp [h', HasPrefix, List.isPrefixOf]
  · rw [e2]
    have hl := getDbTypeLength_sized ['c', 'h', 'a', 'r'] numeral.data []
      (by decide) hne hd hfit
    simp only [convertType]
    rw [hl]
    simp [h', HasPrefix, List.isPrefixOf]

/-- Witness of amended C5 at `varchar(255)` and `char(255)`. -/
theorem convertType_sized_char_length_witness :
    HasPrefix "email" "is_" = false ∧ ("255" : String).data ≠ [] ∧
    ("255" : String).data.all isDigit = true ∧ digitsValue ("255" : String).data = 255 ∧
    ((255 : Nat) : Int) ≤ maxInt ∧
    convertType "email" ("varchar(" ++ "255" ++ ")") "NO" "" "users.email"
      = .ok ("String", ((255 : Nat) : Int), decide (("NO" : String) = "YES")) ∧
    convertType "email" ("char(" ++ "255" ++ ")") "NO" "" "users.email"
      = .ok ("String", ((255 : Nat) : Int), decide (("NO" : String) = "YES")) :=
  ⟨by decide, by decide, by decide, by decide, by decide,
    convertType_sized_char_length "email" "NO" "" "users.email" "255" 255
      (by decide) (by decide) (by decide) (by decide) (by decide)⟩

/-- C6 as stated fails: for a column named `is_region` the unrecognised type `geometry`
does not make `convertType` panic, and the table is assembled. -/
theorem convertType_unsupported_is_named_returns :
    supportedType "geometry" = false ∧
    convertType "is_region" "geometry" "YES" "" "zones.is_region" = .ok ("Boolean", -1, true) ∧
    parseTableDefinition simpleInflect false "model" "zones"
        [{ clnName := "is_region", clnType := "geometry", clnNull := "YES", clnKey := "",
           clnDefault := "", clnExtra := "" }]
      = .ok
        { Version := "0.0.5"
          Package := "model"
          ClassBegin := "data class Zone constructor("
          ClassEnd := ")"
          Model := "ktdata"
          TableName := "zones"
          DataClassName := "Zone"
          Properties :=
            [{ Annotation := "@get:Column(name=\"is_region\", nullable=true)"
               Field := "var region: Boolean?" }] } := by
  decide

/-- C6 amended: for a column whose name does not start with `is_` and whose declared
type matches none of the cases of the `switch`, `convertType` panics for every
nullability and default, and `parseTableDefinition` returns no descriptor for a table
that has such a column. -/
theorem unsupported_type_panics (inf : Inflect) (generateInterface : Bool)
    (kotlinPackage tableName : String) (rows : List Column) (col : Column)
    (hmem : col ∈ rows) (hname : HasPrefix col.clnName "is_" = false)
    (hty : supportedType col.clnType = false) :
    (∀ dbNullable dbDefault column : String,
      convertType col.clnName col.clnType dbNullable dbDefault column
        = .error ("Type not supported: " ++ col.clnType ++ " - " ++ column)) ∧
    ∃ e, parseTableDefinition inf generateInterface kotlinPackage tableName rows = .error e := by
  constructor
  · intro dbNullable dbDefault column
    exact convertType_error_of_unsupported _ _ _ _ _ hname hty
  · obtain ⟨e, he⟩ := rowsLoop_error_of_mem inf generateInterface tableName col
      (rowProperty_error_of_unsupported inf generateInterface tableName col hname hty) rows
      { Version := version
        Package := kotlinPackage
        ClassBegin :=
          if generateInterface then
            "interface " ++ inf.UpperCamelCase (inf.Singularize tableName) ++ " \x7b"
          else "data class " ++ inf.UpperCamelCase (inf.Singularize tableName) ++ " constructor("
        ClassEnd := if generateInterface then "\x7d" else ")"
        Model := if generateInterface then "kt" else "ktdata"
        TableName := tableName
        DataClassName := inf.UpperCamelCase (inf.Singularize tableName)
        Properties := [] } hmem
    refine ⟨e, ?_⟩
    unfold parseTableDefinition
    dsimp only
    rw [he]

/-- Witness of amended C6 at a table whose second column has the type `geometry`. -/
theorem unsupported_type_panics_witness :
    ({ clnName := "area", clnType := "geometry", clnNull := "YES", clnKey := "",
       clnDefault := "", clnExtra := "" } : Column) ∈
      [{ clnName := "id", clnType := "int(11)", clnNull := "NO", clnKey := "PRI",
         clnDefault := "", clnExtra := "auto_increment" },
       { clnName := "area", clnType := "geometry", clnNull := "YES", clnKey := "",
         clnDefault := "", clnExtra := "" }] ∧
    HasPrefix "area" "is_" = false ∧ supportedType "geometry" = false ∧
    (∀ dbNullable dbDefault column : String,
      convertType "area" "geometry" dbNullable dbDefault column
        = .error ("Type not supported: " ++ "geometry" ++ " - " ++ column)) ∧
    ∃ e, parseTableDefinition simpleInflect false "model" "zones"
      [{ clnName := "id", clnType := "int(11)", clnNull := "NO", clnKey := "PRI",
         clnDefault := "", clnExtra := "auto_increment" },
       { clnName := "area", clnType := "geometry", clnNull := "YES", clnKey := "",
         clnDefault := "", clnExtra := "" }] = .error e :=
  ⟨by decide, by decide, by decide,
    unsupported_type_panics simpleInflect false "model" "zones"
      [{ clnName := "id", clnType := "int(11)", clnNull := "NO", clnKey := "PRI",
         clnDefault := "", clnExtra := "auto_increment" },
       { clnName := "area", clnType := "geometry", clnNull := "YES", clnKey := "",
         clnDefault := "", clnExtra := "" }]
      { clnName := "area", clnType := "geometry", clnNull := "YES", clnKey := "",
        clnDefault := "", clnExtra := "" }
      (by decide) (by decide) (by decide)⟩

/-! ## The table assembler -/

/-- C7: for a table with `N ≥ 1` columns, all of supported type, and for either output
mode, `parseTableDefinition` returns a descriptor with exactly `N` properties; the
`i`-th property is the one the loop body derives from the `i`-th column (only the
last one has its `Field` trimmed of trailing commas), and the `Field` of the last
property does not end with `,`. -/
theorem parseTableDefinition_properties (inf : Inflect) (generateInterface : Bool)
    (kotlinPackage tableName : String) (rows : List Column) (hne : rows ≠ [])
    (hsup : ∀ c ∈ rows, supportedType c.clnType = true) :
    ∃ dataClass,
      parseTableDefinition inf generateInterface kotlinPackage tableName rows = .ok dataClass ∧
      dataClass.Properties.length = rows.length ∧
      (∀ (i : Nat) (c : Column), rows[i]? = some c →
        ∃ p, rowProperty inf generateInterface tableName c = .ok p ∧
          dataClass.Properties[i]? = some
            { Annotation := Property.Annotation p
              Field := if i + 1 = rows.length then TrimRight p.Field "," else p.Field }) ∧
      (∀ last, dataClass.Properties.getLast? = some last → HasSuffix last.Field "," = false) := by
  obtain ⟨ps, hps, hfa, hparse⟩ := parseTableDefinition_ok inf generateInterface kotlinPackage
    tableName rows hne
    (fun c hc => rowProperty_ok_of_supported inf generateInterface tableName c (hsup c hc))
  have hlen : rows.length = ps.length := hfa.length_eq
  refine ⟨_, hparse, ?_, ?_, ?_⟩
  · simp only [List.length_set]
    exact hlen.symm
  · intro i c hc
    obtain ⟨p, hp, hr⟩ := forall₂_getElem? _ _ _ hfa i c hc
    refine ⟨p, hr, ?_⟩
    dsimp only
    rw [set_last_getElem? ps _ i p hp, hlen]
    by_cases hi : i + 1 = ps.length
    · rw [if_pos hi, if_pos hi, getLast_of_getElem? ps hps i p hp hi]
    · rw [if_neg hi, if_neg hi]
  · intro last hlast
    dsimp only at hlast
    rw [set_last_getLast? ps hps] at hlast
    cases hlast
    exact trimRight_not_hasSuffix _ ','

/-- Witness of C7 at the table `users` of the end-to-end example, in class mode. -/
theorem parseTableDefinition_properties_witness :
    usersRows ≠ [] ∧ (∀ c ∈ usersRows, supportedType c.clnType = true) ∧
    ∃ dataClass,
      parseTableDefinition simpleInflect false "model" "users" usersRows = .ok dataClass ∧
      dataClass.Properties.length = usersRows.length ∧
      (∀ (i : Nat) (c : Column), usersRows[i]? = some c →
        ∃ p, rowProperty simpleInflect false "users" c = .ok p ∧
          dataClass.Properties[i]? = some
            { Annotation := Property.Annotation p
              Field := if i + 1 = usersRows.length then TrimRight p.Field "," else p.Field }) ∧
      (∀ last, dataClass.Properties.getLast? = some last → HasSuffix last.Field "," = false) :=
  ⟨by decide, by decide,
    parseTableDefinition_properties simpleInflect false "model" "users" usersRows
      (by decide) (by decide)⟩

/-- C8: in interface mode, for a table with at least one column, all of supported
type, the descriptor opens with `interface <ClassName> {`, closes with `}`, carries the
model tag `kt`, and no property has a `Field` ending with `,`. -/
theorem parseTableDefinition_interface_mode (inf : Inflect)
    (kotlinPackage tableName : String) (rows : List Column) (hne : rows ≠ [])
    (hsup : ∀ c ∈ rows, supportedType c.clnType = true) :
    ∃ dataClass,
      parseTableDefinition inf true kotlinPackage tableName rows = .ok dataClass ∧
      dataClass.ClassBegin
        = "interface " ++ inf.UpperCamelCase (inf.Singularize tableName) ++ " \x7b" ∧
      dataClass.ClassEnd = "\x7d" ∧
      dataClass.Model = "kt" ∧
      ∀ p ∈ dataClass.Properties, HasSuffix p.Field "," = false := by
  obtain ⟨ps, hps, hfa, hparse⟩ := parseTableDefinition_ok inf true kotlinPackage
    tableName rows hne
    (fun c hc => rowProperty_ok_of_supported inf true tableName c (hsup c hc))
  refine ⟨_, hparse, rfl, rfl, rfl, ?_⟩
  intro p hp
  dsimp only at hp
  rcases List.mem_or_eq_of_mem_set hp with hmem | rfl
  · obtain ⟨c, -, hr⟩ := forall₂_of_mem_right _ _ _ hfa p hmem
    exact rowProperty_interface_field inf tableName c p hr
  · exact trimRight_not_hasSuffix _ ','

/-- Witness of C8 at the table `users` of the end-to-end example. -/
theorem parseTableDefinition_interface_mode_witness :
    usersRows ≠ [] ∧ (∀ c ∈ usersRows, supportedType c.clnType = true) ∧
    ∃ dataClass,
      parseTableDefinition simpleInflect true "model" "users" usersRows = .ok dataClass ∧
      dataClass.ClassBegin
        = "interface " ++ simpleInflect.UpperCamelCase (simpleInflect.Singularize "users")
          ++ " \x7b" ∧
      dataClass.ClassEnd = "\x7d" ∧
      dataClass.Model = "kt" ∧
      ∀ p ∈ dataClass.Properties, HasSuffix p.Field "," = false :=
  ⟨by decide, by decide,
    parseTableDefinition_interface_mode simpleInflect "model" "users" usersRows
      (by decide) (by decide)⟩

/-- C9 as stated fails: for the one-column table `counters(id int)` the class-mode
descriptor has a single property, whose `Field` is `var id: Int`, so no `Field` ends
with `,`. -/
theorem parseTableDefinition_class_mode_single_column :
    parseTableDefinition simpleInflect false "model" "counters"
        [{ clnName := "id", clnType := "int", clnNull := "NO", clnKey := "PRI",
           clnDefault := "", clnExtra := "auto_increment" }]
      = .ok
        { Version := "0.0.5"
          Package := "model"
          ClassBegin := "data class Counter constructor("
          ClassEnd := ")"
          Model := "ktdata"
          TableName := "counters"
          DataClassName := "Counter"
          Properties :=
            [{ Annotation := "@get:Key  @get:Generated  @get:Column(name=\"id\", nullable=false)"
               Field := "var id: Int" }] } ∧
    HasSuffix "var id: Int" "," = false := by
  decide

/-- C9 amended: in class mode, for a table with at least one column, all of supported
type, the descriptor opens with `data class <ClassName> constructor(`, closes with `)`
and carries the model tag `ktdata`; when the table has at least two columns, at least
one property has a `Field` ending with `,`. -/
theorem parseTableDefinition_class_mode (inf : Inflect)
    (kotlinPackage tableName : String) (rows : List Column) (hne : rows ≠ [])
    (hsup : ∀ c ∈ rows, supportedType c.clnType = true) :
    ∃ dataClass,
      parseTableDefinition inf false kotlinPackage tableName rows = .ok dataClass ∧
      dataClass.ClassBegin
        = "data class " ++ inf.UpperCamelCase (inf.Singularize tableName) ++ " constructor(" ∧
      dataClass.ClassEnd = ")" ∧
      dataClass.Model = "ktdata" ∧
      (2 ≤ rows.length → ∃ p ∈ dataClass.Properties, HasSuffix p.Field "," = true) := by
  obtain ⟨ps, hps, hfa, hparse⟩ := parseTableDefinition_ok inf false kotlinPackage
    tableName rows hne
    (fun c hc => rowProperty_ok_of_supported inf false tableName c (hsup c hc))
  have hlen : rows.length = ps.length := hfa.length_eq
  refine ⟨_, hparse, rfl, rfl, rfl, ?_⟩
  intro h2
  dsimp only
  have h0 : 0 < ps.length := by omega
  have hget : ps[0]? = some ps[0] := List.getElem?_eq_getElem h0
  have hset := set_last_getElem? ps
    { Annotation := Property.Annotation (ps.getLast hps)
      Field := TrimRight (ps.getLast hps).Field "," } 0 ps[0] hget
  rw [if_neg (by omega)] at hset
  refine ⟨ps[0], List.getElem?_mem hset, ?_⟩
  obtain ⟨c, -, hr⟩ := forall₂_of_mem_right _ _ _ hfa ps[0] (List.getElem_mem _)
  exact rowProperty_class_field inf tableName c ps[0] hr

/-- Witness of amended C9 at the three-column table `users` of the end-to-end example. -/
theorem parseTableDefinition_class_mode_witness :
    usersRows ≠ [] ∧ (∀ c ∈ usersRows, supportedType c.clnType = true) ∧
    ∃ dataClass,
      parseTableDefinition simpleInflect false "model" "users" usersRows = .ok dataClass ∧
      dataClass.ClassBegin
        = "data class " ++ simpleInflect.UpperCamelCase (simpleInflect.Singularize "users")
          ++ " constructor(" ∧
      dataClass.ClassEnd = ")" ∧
      dataClass.Model = "ktdata" ∧
      (2 ≤ usersRows.length → ∃ p ∈ dataClass.Properties, HasSuffix p.Field "," = true) :=
  ⟨by decide, by decide,
    parseTableDefinition_class_mode simpleInflect "model" "users" usersRows
      (by decide) (by decide)⟩

/-- C10: the end-to-end example. For the table `users` with the rows `id` (key `PRI`,
extra `auto_increment`), `is_active` and `email` (both declared `NO`), and an
`inflect` package that singularizes `users` to `user`, upper-camel-cases `user` to
`User` and leaves `id`, `active` and `email` unchanged, class mode yields the class
`User` with exactly three properties: the key and generated `var id: Int,`, the
boolean `var active: Boolean,` with the prefix stripped, and the non-nullable string
of length 255 `var email: String`. -/
theorem parseTableDefinition_users (inf : Inflect) (kotlinPackage : String)
    (hS : inf.Singularize "users" = "user") (hU : inf.UpperCamelCase "user" = "User")
    (hid : inf.LowerCamelCase "id" = "id")
    (hactive : inf.LowerCamelCase "active" = "active")
    (hemail : inf.LowerCamelCase "email" = "email") :
    parseTableDefinition inf false kotlinPackage "users" usersRows
      = .ok
        { Version := "0.0.5"
          Package := kotlinPackage
          ClassBegin := "data class User constructor("
          ClassEnd := ")"
          Model := "ktdata"
          TableName := "users"
          DataClassName := "User"
          Properties :=
            [{ Annotation := "@get:Key  @get:Generated  @get:Column(name=\"id\", nullable=false)"
               Field := "var id: Int," },
             { Annotation := "@get:Column(name=\"is_active\", nullable=false)"
               Field := "var active: Boolean," },
             { Annotation := "@get:Column(name=\"email\", length=255, nullable=false)"
               Field := "var email: String" }] } := by
  have r1 : rowProperty inf false "users"
      { clnName := "id", clnType := "int(11)", clnNull := "NO", clnKey := "PRI",
        clnDefault := "", clnExtra := "auto_increment" }
      = .ok { Annotation := "@get:Key  @get:Generated  @get:Column(name=\"id\", nullable=false)"
              Field := "var id: Int," } := by
    have hc : convertType "id" "int(11)" "NO" "" ("users" ++ "." ++ "id")
        = .ok ("Int", -1, false) := by decide
    have hname : (if (decide (("Int" : String) = "Boolean") && HasPrefix "id" "is_") = true
        then Replace "id" "is_" "" 1 else "id") = "id" := by decide
    unfold rowProperty
    dsimp only
    rw [hc]
    dsimp only
    rw [hname, hid]
    decide
  have r2 : rowProperty inf false "users"
      { clnName := "is_active", clnType := "tinyint(1)", clnNull := "NO", clnKey := "",
        clnDefault := "", clnExtra := "" }
      = .ok { Annotation := "@get:Column(name=\"is_active\", nullable=false)"
              Field := "var active: Boolean," } := by
    have hc : convertType "is_active" "tinyint(1)" "NO" "" ("users" ++ "." ++ "is_active")
        = .ok ("Boolean", -1, false) := by decide
    have hname : (if (decide (("Boolean" : String) = "Boolean") &&
          HasPrefix "is_active" "is_") = true
        then Replace "is_active" "is_" "" 1 else "is_active") = "active" := by decide
    unfold rowProperty
    dsimp only
    rw [hc]
    dsimp only
    rw [hname, hactive]
    decide
  have r3 : rowProperty inf false "users"
      { clnName := "email", clnType := "varchar(255)", clnNull := "NO", clnKey := "",
        clnDefault := "", clnExtra := "" }
      = .ok { Annotation := "@get:Column(name=\"email\", length=255, nullable=false)"
              Field := "var email: String," } := by
    have hc : convertType "email" "varchar(255)" "NO" "" ("users" ++ "." ++ "email")
        = .ok ("String", 255, false) := by decide
    have hname : (if (decide (("String" : String) = "Boolean") && HasPrefix "email" "is_") = true
        then Replace "email" "is_" "" 1 else "email") = "email" := by decide
    unfold rowProperty
    dsimp only
    rw [hc]
    dsimp only
    rw [hname, hemail]
    decide
  unfold parseTableDefinition usersRows
  dsimp only
  rw [hS, hU]
  simp only [rowsLoop, r1, r2, r3, DataClass.AddItem]
  rfl

/-- Witness of C10 with the instance `simpleInflect` and the package `model`. -/
theorem parseTableDefinition_users_witness :
    simpleInflect.Singularize "users" = "user" ∧ simpleInflect.UpperCamelCase "user" = "User" ∧
    simpleInflect.LowerCamelCase "id" = "id" ∧
    simpleInflect.LowerCamelCase "active" = "active" ∧
    simpleInflect.LowerCamelCase "email" = "email" ∧
    parseTableDefinition simpleInflect false "model" "users" usersRows
      = .ok
        { Version := "0.0.5"
          Package := "model"
          ClassBegin := "data class User constructor("
          ClassEnd := ")"
          Model := "ktdata"
          TableName := "users"
          DataClassName := "User"
          Properties :=
            [{ Annotation := "@get:Key  @get:Generated  @get:Column(name=\"id\", nullable=false)"
               Field := "var id: Int," },
             { Annotation := "@get:Column(name=\"is_active\", nullable=false)"
               Field := "var active: Boolean," },
             { Annotation := "@get:Column(name=\"email\", length=255, nullable=false)"
               Field := "var email: String" }] } :=
  ⟨by decide, by decide, by decide, by decide, by decide,
    parseTableDefinition_users simpleInflect "model"
      (by decide) (by decide) (by decide) (by decide) (by decide)⟩

/-- C11: `getDbTypeLength` extracts the size by pattern matching. When the type string
contains a parenthesised group of decimal digits, the result is the value of the first
such group if that value fits Go's `int` (and `-1` if it does not); when the type
string contains no parenthesised group of digits, the result is `-1`. -/
theorem getDbTypeLength_first_group (dbType : String) :
    (∀ pre ds post : List Char,
      dbType.data = pre ++ '(' :: (ds ++ ')' :: post) → ds ≠ [] → ds.all isDigit = true →
      (∀ pre' ds' post' : List Char, dbType.data = pre' ++ '(' :: (ds' ++ ')' :: post') →
        ds' ≠ [] → ds'.all isDigit = true → pre.length ≤ pre'.length) →
      (((digitsValue ds : Int) ≤ maxInt → getDbTypeLength dbType = (digitsValue ds : Int)) ∧
       (¬ (digitsValue ds : Int) ≤ maxInt → getDbTypeLength dbType = -1))) ∧
    ((∀ pre ds post : List Char, ds ≠ [] → ds.all isDigit = true →
        dbType.data ≠ pre ++ '(' :: (ds ++ ')' :: post)) →
      getDbTypeLength dbType = -1) := by
  constructor
  · intro pre ds post hl hne hd hmin
    have hf := findParenDigits_first dbType.data pre ds post hl hne hd hmin
    constructor
    · intro hfit
      simp only [getDbTypeLength, FindStringSubmatch, hf, Atoi_digits ds hne hd, if_pos hfit]
    · intro hfit
      simp only [getDbTypeLength, FindStringSubmatch, hf, Atoi_digits ds hne hd, if_neg hfit]
  · intro hno
    cases hf : findParenDigits dbType.data with
    | none => simp only [getDbTypeLength, FindStringSubmatch, hf]
    | some ds =>
      obtain ⟨pre, post, hl, hne, hd⟩ := findParenDigits_sound _ _ hf
      exact absurd hl (hno pre ds post hne hd)

/-- Witness of C11 at `varchar(255)`, whose first parenthesised group is `255`, and at
`longtext`, which has none. -/
theorem getDbTypeLength_first_group_witness :
    getDbTypeLength "varchar(255)" = 255 ∧ getDbTypeLength "longtext" = -1 :=
  ⟨((getDbTypeLength_first_group "varchar(255)").1
      ['v', 'a', 'r', 'c', 'h', 'a', 'r'] ['2', '5', '5'] [] (by decide) (by decide) (by decide)
      (fun pre' ds' post' h _ _ =>
        length_le_of_no_paren ['v', 'a', 'r', 'c', 'h', 'a', 'r'] pre' _ _ (by decide) h)).1
      (by decide),
   (getDbTypeLength_first_group "longtext").2 (fun pre ds post _ _ h => by
      have hmem : '(' ∈ ("longtext" : String).data := by rw [h]; simp
      revert hmem
      decide)⟩

/-- C12 as stated fails: for a column named `is_archived` the type `timestamp` with the
all-zero default does not override the declared nullability `NO`. -/
theorem convertType_is_named_no_override :
    convertType "is_archived" "timestamp" "NO" "0000-00-00 00:00:00" "t.is_archived"
      = .ok ("Boolean", -1, false) := by
  decide

/-- C12 amended: whenever `convertType` returns normally, the returned nullability is
the declared one (`dbNullable == "YES"`), overridden to `true` exactly when the column
name does not start with `is_`, the type is `timestamp` and the default is
`0000-00-00 00:00:00`; in particular a column declared `YES` is returned nullable. -/
theorem convertType_nullable (dbClnName dbType dbNullable dbDefault column dataType : String)
    (length : Int) (nullable : Bool)
    (h : convertType dbClnName dbType dbNullable dbDefault column
      = .ok (dataType, length, nullable)) :
    nullable = (decide (dbNullable = "YES") ||
      (!HasPrefix dbClnName "is_" && decide (dbType = "timestamp") &&
        decide (dbDefault = "0000-00-00 00:00:00"))) ∧
    (dbNullable = "YES" → nullable = true) := by
  have hp := convertType_path dbClnName dbType dbNullable dbDefault column
  rw [h] at hp
  have key : nullable = (decide (dbNullable = "YES") ||
      (!HasPrefix dbClnName "is_" && decide (dbType = "timestamp") &&
        decide (dbDefault = "0000-00-00 00:00:00"))) := by
    cases hp with
    | isNamed h0 => simp [h0]
    | timestamp hn hc =>
      subst hc
      by_cases hd : dbDefault = "0000-00-00 00:00:00" <;> simp [hn, hd]
    | _ =>
      rename_i hn hc
      by_cases hts : dbType = "timestamp"
      · subst hts
        exfalso
        revert hc
        decide
      · simp [hts]
  refine ⟨key, ?_⟩
  intro hy
  rw [key]
  simp [hy]

/-- Witness of amended C12 at a `timestamp` column declared `NO` with the all-zero
default. -/
theorem convertType_nullable_witness :
    convertType "created_at" "timestamp" "NO" "0000-00-00 00:00:00" "t.created_at"
      = .ok ("java.time.ZonedDateTime", -1, true) ∧
    true = (decide (("NO" : String) = "YES") ||
      (!HasPrefix "created_at" "is_" && decide (("timestamp" : String) = "timestamp") &&
        decide (("0000-00-00 00:00:00" : String) = "0000-00-00 00:00:00"))) ∧
    (("NO" : String) = "YES" → true = true) :=
  ⟨by decide,
    convertType_nullable "created_at" "timestamp" "NO" "0000-00-00 00:00:00" "t.created_at"
      "java.time.ZonedDateTime" (-1) true (by decide)⟩

/-- C13: for a column on which `convertType` returns `(dataType, length, nullable)`, the
loop body returns a property whose annotation is exactly `@get:Key` and two blanks if
and only if the key designation is `PRI`, then `@get:Generated` and two blanks if and
only if the extra attribute is `auto_increment`, then `@get:Column(name="<name>", `,
then `length=<length>, ` if and only if the length is not `-1`, then `nullable=true)`
or `nullable=false)`. The annotation has no leading or trailing white space and does
not end with `, )`. -/
theorem rowProperty_annotation_text (inf : Inflect) (generateInterface : Bool)
    (tableName : String) (col : Column) (dataType : String) (length : Int) (nullable : Bool)
    (hc : convertType col.clnName col.clnType col.clnNull col.clnDefault
      (tableName ++ "." ++ col.clnName) = .ok (dataType, length, nullable)) :
    ∃ p, rowProperty inf generateInterface tableName col = .ok p ∧
      Property.Annotation p =
        (if col.clnKey = "PRI" then "@get:Key  " else "") ++
        (if col.clnExtra = "auto_increment" then "@get:Generated  " else "") ++
        "@get:Column(name=\"" ++ col.clnName ++ "\", " ++
        (if length ≠ -1 then "length=" ++ Itoa length ++ ", " else "") ++
        (if nullable = true then "nullable=true)" else "nullable=false)") ∧
      TrimSpace (Property.Annotation p) = Property.Annotation p ∧
      HasSuffix (Property.Annotation p) ", )" = false := by
  refine ⟨_, rowProperty_of_convert inf generateInterface tableName col dataType length
    nullable hc, ?_⟩
  dsimp only
  rw [annotation_text]
  refine ⟨rfl, ?_, no_dangling_separator _ nullable⟩
  apply trimSpace_clean
  · by_cases hk : col.clnKey = "PRI" <;> by_cases he : col.clnExtra = "auto_increment" <;>
      simp [hk, he]
  · by_cases hn : nullable = true
    · refine ⟨((if col.clnKey = "PRI" then "@get:Key  " else "") ++
        (if col.clnExtra = "auto_increment" then "@get:Generated  " else "") ++
        "@get:Column(name=\"" ++ col.clnName ++ "\", " ++
        (if length ≠ -1 then "length=" ++ Itoa length ++ ", " else "") ++ "nullable=true").data, ?_⟩
      simp [hn]
    · refine ⟨((if col.clnKey = "PRI" then "@get:Key  " else "") ++
        (if col.clnExtra = "auto_increment" then "@get:Generated  " else "") ++
        "@get:Column(name=\"" ++ col.clnName ++ "\", " ++
        (if length ≠ -1 then "length=" ++ Itoa length ++ ", " else "") ++ "nullable=false").data, ?_⟩
      simp [hn]

/-- Witness of C13 at the column `email varchar(255)` of the table `users`. -/
theorem rowProperty_annotation_text_witness :
    convertType "email" "varchar(255)" "NO" "" ("users" ++ "." ++ "email")
      = .ok ("String", 255, false) ∧
    ∃ p, rowProperty simpleInflect false "users"
        { clnName := "email", clnType := "varchar(255)", clnNull := "NO", clnKey := "",
          clnDefault := "", clnExtra := "" } = .ok p ∧
      Property.Annotation p =
        (if ("" : String) = "PRI" then "@get:Key  " else "") ++
        (if ("" : String) = "auto_increment" then "@get:Generated  " else "") ++
        "@get:Column(name=\"" ++ "email" ++ "\", " ++
        (if (255 : Int) ≠ -1 then "length=" ++ Itoa 255 ++ ", " else "") ++
        (if false = true then "nullable=true)" else "nullable=false)") ∧
      TrimSpace (Property.Annotation p) = Property.Annotation p ∧
      HasSuffix (Property.Annotation p) ", )" = false :=
  ⟨by decide,
    rowProperty_annotation_text simpleInflect false "users"
      { clnName := "email", clnType := "varchar(255)", clnNull := "NO", clnKey := "",
        clnDefault := "", clnExtra := "" } "String" 255 false (by decide)⟩

/-- C14: the mapped type is `Boolean` exactly when the column name starts with `is_`.
For a column named `is_<rest>` the field is `var `, the lower-camel-cased `<rest>`,
`: Boolean` and the nullability marker (followed by the separator `,` in class mode),
while the annotation carries the unstripped column name; for every other column the
field name is the lower-camel-cased unchanged column name. -/
theorem rowProperty_field_name (inf : Inflect) (generateInterface : Bool)
    (tableName : String) (col : Column) (dataType : String) (length : Int) (nullable : Bool)
    (hc : convertType col.clnName col.clnType col.clnNull col.clnDefault
      (tableName ++ "." ++ col.clnName) = .ok (dataType, length, nullable)) :
    (dataType = "Boolean" ↔ HasPrefix col.clnName "is_" = true) ∧
    ∃ p, rowProperty inf generateInterface tableName col = .ok p ∧
      (∃ pre post, Property.Annotation p
        = pre ++ "@get:Column(name=\"" ++ col.clnName ++ "\", " ++ post) ∧
      (∀ rest : String, col.clnName = "is_" ++ rest →
        p.Field = "var " ++ inf.LowerCamelCase rest ++ ": Boolean" ++
          (if nullable = true then "?" else "") ++
          (if generateInterface = true then "" else ",")) ∧
      (HasPrefix col.clnName "is_" = false →
        p.Field = "var " ++ inf.LowerCamelCase col.clnName ++ ": " ++ dataType ++
          (if nullable = true then "?" else "") ++
          (if generateInterface = true then "" else ",")) := by
  have hiff := convertType_boolean_iff _ _ _ _ _ _ _ _ hc
  have hval := convertType_dataType_values _ _ _ _ _ _ _ _ hc
  refine ⟨hiff, _, rowProperty_of_convert inf generateInterface tableName col dataType length
    nullable hc, ?_, ?_, ?_⟩
  · dsimp only
    rw [annotation_text]
    exact ⟨(if col.clnKey = "PRI" then "@get:Key  " else "") ++
        (if col.clnExtra = "auto_increment" then "@get:Generated  " else ""),
      (if length ≠ -1 then "length=" ++ Itoa length ++ ", " else "") ++
        (if nullable = true then "nullable=true)" else "nullable=false)"),
      by apply String.ext; simp⟩
  · intro rest hrest
    have hpre : HasPrefix col.clnName "is_" = true := by
      rw [hrest, hasPrefix_iff]
      exact ⟨rest.data, by simp⟩
    have hb : dataType = "Boolean" := hiff.mpr hpre
    dsimp only
    rw [field_text _ _ _ _ hval]
    subst hb
    simp only [hpre, decide_True, Bool.and_self, if_true]
    rw [hrest, replace_is_named]
    apply String.ext
    simp
  · intro hpre
    dsimp only
    rw [field_text _ _ _ _ hval]
    simp only [hpre, Bool.and_false, Bool.false_eq_true, if_false]

/-- Witness of C14 at the column `is_active tinyint(1)` of the table `users`, in class
mode. -/
theorem rowProperty_field_name_witness :
    convertType "is_active" "tinyint(1)" "NO" "" ("users" ++ "." ++ "is_active")
      = .ok ("Boolean", -1, false) ∧
    (("Boolean" : String) = "Boolean" ↔ HasPrefix "is_active" "is_" = true) ∧
    ∃ p, rowProperty simpleInflect false "users"
        { clnName := "is_active", clnType := "tinyint(1)", clnNull := "NO", clnKey := "",
          clnDefault := "", clnExtra := "" } = .ok p ∧
      (∃ pre post, Property.Annotation p
        = pre ++ "@get:Column(name=\"" ++ "is_active" ++ "\", " ++ post) ∧
      (∀ rest : String, "is_active" = "is_" ++ rest →
        p.Field = "var " ++ simpleInflect.LowerCamelCase rest ++ ": Boolean" ++
          (if false = true then "?" else "") ++ (if false = true then "" else ",")) ∧
      (HasPrefix "is_active" "is_" = false →
        p.Field = "var " ++ simpleInflect.LowerCamelCase "is_active" ++ ": " ++ "Boolean" ++
          (if false = true then "?" else "") ++ (if false = true then "" else ",")) :=
  ⟨by decide,
    rowProperty_field_name simpleInflect false "users"
      { clnName := "is_active", clnType := "tinyint(1)", clnNull := "NO", clnKey := "",
        clnDefault := "", clnExtra := "" } "Boolean" (-1) false (by decide)⟩

/-- C15: in class mode, for a table with `N ≥ 1` columns, all of supported type, every
property but the last has a `Field` ending with exactly one `,` (it ends with `,` and
not with `,,`), and the `Field` of the last property does not end with `,`. -/
theorem parseTableDefinition_separators (inf : Inflect) (kotlinPackage tableName : String)
    (rows : List Column) (hne : rows ≠ [])
    (hsup : ∀ c ∈ rows, supportedType c.clnType = true) :
    ∃ dataClass,
      parseTableDefinition inf false kotlinPackage tableName rows = .ok dataClass ∧
      dataClass.Properties.length = rows.length ∧
      ∀ (i : Nat) (q : Property), dataClass.Properties[i]? = some q →
        (i + 1 < rows.length → HasSuffix q.Field "," = true ∧ HasSuffix q.Field ",," = false) ∧
        (i + 1 = rows.length → HasSuffix q.Field "," = false) := by
  obtain ⟨ps, hps, hfa, hparse⟩ := parseTableDefinition_ok inf false kotlinPackage
    tableName rows hne
    (fun c hc => rowProperty_ok_of_supported inf false tableName c (hsup c hc))
  have hlen : rows.length = ps.length := hfa.length_eq
  refine ⟨_, hparse, by simp only [List.length_set]; exact hlen.symm, ?_⟩
  intro i q hq
  dsimp only at hq
  have hi : i < ps.length := by
    rcases Nat.lt_or_ge i ps.length with h | h
    · exact h
    · rw [List.getElem?_eq_none (by simpa using h)] at hq
      cases hq
  have hget : ps[i]? = some ps[i] := List.getElem?_eq_getElem hi
  rw [set_last_getElem? ps _ i ps[i] hget] at hq
  constructor
  · intro hlt
    rw [if_neg (by omega)] at hq
    cases hq
    obtain ⟨c, -, hr⟩ := forall₂_of_mem_right _ _ _ hfa ps[i] (List.getElem_mem _)
    obtain ⟨dataType, length, nullable, fieldName, -, hval, hfield, -⟩ :=
      rowProperty_field_body inf false tableName c ps[i] hr
    rw [hfield]
    simp only [Bool.false_eq_true, if_false]
    exact ⟨hasSuffix_append_self _ ",",
      hasSuffix_double_comma _ (fieldBody_not_comma fieldName dataType nullable hval)⟩
  · intro heq
    rw [if_pos (by omega)] at hq
    cases hq
    exact trimRight_not_hasSuffix _ ','

/-- Witness of C15 at the table `users` of the end-to-end example. -/
theorem parseTableDefinition_separators_witness :
    usersRows ≠ [] ∧ (∀ c ∈ usersRows, supportedType c.clnType = true) ∧
    ∃ dataClass,
      parseTableDefinition simpleInflect false "model" "users" usersRows = .ok dataClass ∧
      dataClass.Properties.length = usersRows.length ∧
      ∀ (i : Nat) (q : Property), dataClass.Properties[i]? = some q →
        (i + 1 < usersRows.length →
          HasSuffix q.Field "," = true ∧ HasSuffix q.Field ",," = false) ∧
        (i + 1 = usersRows.length → HasSuffix q.Field "," = false) :=
  ⟨by decide, by decide,
    parseTableDefinition_separators simpleInflect "model" "users" usersRows
      (by decide) (by decide)⟩

/-- C16: for a table with at least one column, all of supported type, in either output
mode, every property of the descriptor comes from a column on which `convertType`
returned `(dataType, length, nullable)`; its field, without the separator, is `var `,
a name, `: `, the type name and then `?` exactly when `nullable` holds, and its
annotation ends with `nullable=true)` when `nullable` holds and with `nullable=false)`
otherwise. Hence the field carries the `?` marker if and only if the annotation ends
with `nullable=true)`. -/
theorem parseTableDefinition_nullability_agrees (inf : Inflect) (generateInterface : Bool)
    (kotlinPackage tableName : String) (rows : List Column) (hne : rows ≠ [])
    (hsup : ∀ c ∈ rows, supportedType c.clnType = true) :
    ∃ dataClass,
      parseTableDefinition inf generateInterface kotlinPackage tableName rows = .ok dataClass ∧
      ∀ q ∈ dataClass.Properties,
        ∃ (c : Column) (dataType : String) (length : Int) (nullable : Bool) (fieldName : String),
          c ∈ rows ∧
          convertType c.clnName c.clnType c.clnNull c.clnDefault
            (tableName ++ "." ++ c.clnName) = .ok (dataType, length, nullable) ∧
          TrimRight q.Field ","
            = "var " ++ fieldName ++ ": " ++ dataType ++ (if nullable = true then "?" else "") ∧
          HasSuffix (Property.Annotation q)
            (if nullable = true then "nullable=true)" else "nullable=false)") = true ∧
          (HasSuffix (TrimRight q.Field ",") "?" = true ↔
            HasSuffix (Property.Annotation q) "nullable=true)" = true) := by
  obtain ⟨ps, hps, hfa, hparse⟩ := parseTableDefinition_ok inf generateInterface kotlinPackage
    tableName rows hne
    (fun c hc => rowProperty_ok_of_supported inf generateInterface tableName c (hsup c hc))
  refine ⟨_, hparse, ?_⟩
  intro q hq
  dsimp only at hq
  rcases List.mem_or_eq_of_mem_set hq with hmem | rfl
  · obtain ⟨c, hcmem, hr⟩ := forall₂_of_mem_right _ _ _ hfa q hmem
    obtain ⟨dataType, length, nullable, fieldName, hc, h1, h2, h3⟩ :=
      rowProperty_nullability inf generateInterface tableName c q hr
    exact ⟨c, dataType, length, nullable, fieldName, hcmem, hc, h1, h2, h3⟩
  · obtain ⟨c, hcmem, hr⟩ := forall₂_of_mem_right _ _ _ hfa (ps.getLast hps)
      (List.getLast_mem hps)
    obtain ⟨dataType, length, nullable, fieldName, hc, h1, h2, h3⟩ :=
      rowProperty_nullability inf generateInterface tableName c (ps.getLast hps) hr
    refine ⟨c, dataType, length, nullable, fieldName, hcmem, hc, ?_, h2, ?_⟩
    · dsimp only
      rw [trimRight_idempotent, h1]
    · dsimp only
      rw [trimRight_idempotent]
      exact h3

/-- Witness of C16 at the table `users` of the end-to-end example, in interface mode. -/
theorem parseTableDefinition_nullability_agrees_witness :
    usersRows ≠ [] ∧ (∀ c ∈ usersRows, supportedType c.clnType = true) ∧
    ∃ dataClass,
      parseTableDefinition simpleInflect true "model" "users" usersRows = .ok dataClass ∧
      ∀ q ∈ dataClass.Properties,
        ∃ (c : Column) (dataType : String) (length : Int) (nullable : Bool) (fieldName : String),
          c ∈ usersRows ∧
          convertType c.clnName c.clnType c.clnNull c.clnDefault
            ("users" ++ "." ++ c.clnName) = .ok (dataType, length, nullable) ∧
          TrimRight q.Field ","
            = "var " ++ fieldName ++ ": " ++ dataType ++ (if nullable = true then "?" else "") ∧
          HasSuffix (Property.Annotation q)
            (if nullable = true then "nullable=true)" else "nullable=false)") = true ∧
          (HasSuffix (TrimRight q.Field ",") "?" = true ↔
            HasSuffix (Property.Annotation q) "nullable=true)" = true) :=
  ⟨by decide, by decide,
    parseTableDefinition_nullability_agrees simpleInflect true "model" "users" usersRows
      (by decide) (by decide)⟩

/-- C17: type matching is case-sensitive. For a column whose name does not start with
`is_` and a type string matched by the `switch`, `convertType` returns normally, and on
the upper-case spelling of that type string (every ASCII lower-case letter replaced by
its capital) it panics. -/
theorem convertType_case_sensitive (dbClnName dbType dbNullable dbDefault column : String)
    (hname : HasPrefix dbClnName "is_" = false) (hty : supportedType dbType = true) :
    (∃ r, convertType dbClnName dbType dbNullable dbDefault column = .ok r) ∧
    convertType dbClnName ⟨dbType.data.map upperAscii⟩ dbNullable dbDefault column
      = .error ("Type not supported: " ++ ⟨dbType.data.map upperAscii⟩ ++ " - " ++ column) := by
  refine ⟨convertType_ok_of_supported _ _ _ _ _ hty, ?_⟩
  obtain ⟨c, rest, hdata, hc⟩ := supportedType_head dbType hty
  apply convertType_error_of_unsupported _ _ _ _ _ hname
  rw [hdata, List.map_cons]
  exact unsupported_of_head _ _ (upperAscii_head c hc)

/-- Witness of C17 at `INT`, `TINYINT(1)`, `VARCHAR(255)` and `TIMESTAMP`. -/
theorem convertType_case_sensitive_witness :
    HasPrefix "c" "is_" = false ∧
    supportedType "int" = true ∧ supportedType "tinyint(1)" = true ∧
    supportedType "varchar(255)" = true ∧ supportedType "timestamp" = true ∧
    (⟨("int" : String).data.map upperAscii⟩ : String) = "INT" ∧
    (⟨("tinyint(1)" : String).data.map upperAscii⟩ : String) = "TINYINT(1)" ∧
    (⟨("varchar(255)" : String).data.map upperAscii⟩ : String) = "VARCHAR(255)" ∧
    (⟨("timestamp" : String).data.map upperAscii⟩ : String) = "TIMESTAMP" ∧
    ((∃ r, convertType "c" "int" "NO" "" "t.c" = .ok r) ∧
      convertType "c" ⟨("int" : String).data.map upperAscii⟩ "NO" "" "t.c"
        = .error ("Type not supported: " ++ ⟨("int" : String).data.map upperAscii⟩ ++ " - "
            ++ "t.c")) ∧
    ((∃ r, convertType "c" "tinyint(1)" "NO" "" "t.c" = .ok r) ∧
      convertType "c" ⟨("tinyint(1)" : String).data.map upperAscii⟩ "NO" "" "t.c"
        = .error ("Type not supported: " ++ ⟨("tinyint(1)" : String).data.map upperAscii⟩
            ++ " - " ++ "t.c")) ∧
    ((∃ r, convertType "c" "varchar(255)" "NO" "" "t.c" = .ok r) ∧
      convertType "c" ⟨("varchar(255)" : String).data.map upperAscii⟩ "NO" "" "t.c"
        = .error ("Type not supported: " ++ ⟨("varchar(255)" : String).data.map upperAscii⟩
            ++ " - " ++ "t.c")) ∧
    ((∃ r, convertType "c" "timestamp" "NO" "" "t.c" = .ok r) ∧
      convertType "c" ⟨("timestamp" : String).data.map upperAscii⟩ "NO" "" "t.c"
        = .error ("Type not supported: " ++ ⟨("timestamp" : String).data.map upperAscii⟩
            ++ " - " ++ "t.c")) :=
  ⟨by decide, by decide, by decide, by decide, by decide, by decide, by decide, by decide,
    by decide,
    convertType_case_sensitive "c" "int" "NO" "" "t.c" (by decide) (by decide),
    convertType_case_sensitive "c" "tinyint(1)" "NO" "" "t.c" (by decide) (by decide),
    convertType_case_sensitive "c" "varchar(255)" "NO" "" "t.c" (by decide) (by decide),
    convertType_case_sensitive "c" "timestamp" "NO" "" "t.c" (by decide) (by decide)⟩

/-- C18: for an empty column description `parseTableDefinition` does not return a
descriptor: the loop adds no property, `size` is 0 and the index `size-1` is out of
range. For every table with at least one column, all of supported type, the index is
in range (`0 ≤ size-1 < size`) and the call returns. -/
theorem parseTableDefinition_empty_table (inf : Inflect) (generateInterface : Bool)
    (kotlinPackage tableName : String) :
    parseTableDefinition inf generateInterface kotlinPackage tableName []
      = .error "runtime error: index out of range [-1]" ∧
    ∀ rows : List Column, rows ≠ [] → (∀ c ∈ rows, supportedType c.clnType = true) →
      ∃ dataClass,
        parseTableDefinition inf generateInterface kotlinPackage tableName rows = .ok dataClass ∧
        dataClass.Properties.length = rows.length ∧
        0 ≤ (dataClass.Properties.length : Int) - 1 ∧
        (dataClass.Properties.length : Int) - 1 < dataClass.Properties.length := by
  constructor
  · rfl
  · intro rows hne hsup
    obtain ⟨ps, hps, hfa, hparse⟩ := parseTableDefinition_ok inf generateInterface kotlinPackage
      tableName rows hne
      (fun c hc => rowProperty_ok_of_supported inf generateInterface tableName c (hsup c hc))
    have hlen : rows.length = ps.length := hfa.length_eq
    have hpos : 0 < ps.length := List.length_pos.mpr hps
    refine ⟨_, hparse, ?_, ?_, ?_⟩
    · simp only [List.length_set]
      exact hlen.symm
    · simp only [List.length_set]
      omega
    · simp only [List.length_set]
      omega

/-- Witness of C18 at the table `users` of the end-to-end example. -/
theorem parseTableDefinition_empty_table_witness :
    parseTableDefinition simpleInflect false "model" "users" []
      = .error "runtime error: index out of range [-1]" ∧
    usersRows ≠ [] ∧ (∀ c ∈ usersRows, supportedType c.clnType = true) ∧
    ∃ dataClass,
      parseTableDefinition simpleInflect false "model" "users" usersRows = .ok dataClass ∧
      dataClass.Properties.length = usersRows.length ∧
      0 ≤ (dataClass.Properties.length : Int) - 1 ∧
      (dataClass.Properties.length : Int) - 1 < dataClass.Properties.length :=
  ⟨(parseTableDefinition_empty_table simpleInflect false "model" "users").1,
    by decide, by decide,
    (parseTableDefinition_empty_table simpleInflect false "model" "users").2 usersRows
      (by decide) (by decide)⟩

/-- C19: the conditions of the clauses of the `switch` in `convertType` are pairwise
mutually exclusive: for every type string at most one clause has a condition that
holds. Hence `convertType` returns the same result when the clauses are listed in any
other order. -/
theorem convertType_order_independent (dbClnName dbType dbNullable dbDefault column : String) :
    (switchCases dbType dbNullable dbDefault).Pairwise
      (fun a b => ¬ (a.1 = true ∧ b.1 = true)) ∧
    ∀ clauses : List (Bool × (String × Int × Bool)),
      clauses.Perm (switchCases dbType dbNullable dbDefault) →
      convertTypeWith clauses dbClnName dbType dbNullable column
        = convertType dbClnName dbType dbNullable dbDefault column := by
  have hex := switchCases_exclusive dbType dbNullable dbDefault
  refine ⟨hex, ?_⟩
  intro clauses hperm
  unfold convertTypeWith
  by_cases h0 : HasPrefix dbClnName "is_" = true
  · rw [if_pos h0]
    simp [convertType, h0]
  · rw [if_neg h0, firstMatch_perm _ _ hex hperm]
    exact firstMatch_switchCases dbClnName dbType dbNullable dbDefault column (by simpa using h0)

/-- Witness of C19 with the clauses in reverse order, at `varchar(255)`. -/
theorem convertType_order_independent_witness :
    (switchCases "varchar(255)" "NO" "").reverse.Perm (switchCases "varchar(255)" "NO" "") ∧
    convertTypeWith (switchCases "varchar(255)" "NO" "").reverse "email" "varchar(255)" "NO"
        "users.email"
      = convertType "email" "varchar(255)" "NO" "" "users.email" :=
  ⟨List.reverse_perm _,
    (convertType_order_independent "email" "varchar(255)" "NO" "" "users.email").2 _
      (List.reverse_perm _)⟩

end RequerySchemaGen
